import Mathlib

/-!
Verification development for the astlog log-ingestion engine
(`astlog/reader.py`, `astlog/app.py`).

The Python source is a byte-oriented parser.  Byte strings are modelled as
Lean `String`s (one `Char` per byte); all byte-string primitives that the
source uses (`find`, slicing, `startswith`, truthiness, negative indices)
are modelled explicitly below with Python semantics.  `None` is modelled by
`Option`.  Object references are modelled arena-style by indices or keys,
as noted at each field.  Statements that a Python method raises are
modelled with `Option` results (`none` = exception) where relevant.
-/

namespace Astlog

/-! ## Python byte-string primitives -/

/-- Python truthiness of an optional byte string: `None` and `b''` are falsy. -/
def pyTruthy : Option String → Bool
  | none => false
  | some s => s != ""

/-- Python truthiness of an optional int: `None` and `0` are falsy. -/
def pyTruthyInt : Option Int → Bool
  | none => false
  | some n => n != 0

/-- `bytes.startswith`. -/
def pyStartsWith (s p : String) : Bool :=
  s.data.take p.data.length == p.data

/-- `s[a:b]` with non-negative bounds (Python slices clamp out-of-range). -/
def pySliceNat (s : String) (a b : Nat) : String :=
  String.mk ((s.data.take b).drop a)

/-- `s[a:b]` where the stop bound may be negative (counts from the end). -/
def pySliceToInt (s : String) (a : Nat) (b : Int) : String :=
  let bn : Int := if b < 0 then (s.data.length : Int) + b else b
  if bn ≤ (a : Int) then "" else pySliceNat s a bn.toNat

/-- `s[a:]`. -/
def pyDropStr (s : String) (a : Nat) : String :=
  String.mk (s.data.drop a)

/-- `s[i]` for a non-negative index; `none` models an `IndexError`. -/
def pyCharAt (s : String) (i : Nat) : Option Char :=
  s.data.get? i

/-- `s[i]` for a possibly negative index (Python wraps negative indices). -/
def pyIndexInt (s : String) (i : Int) : Option Char :=
  if i < 0 then
    let j : Int := (s.data.length : Int) + i
    if j < 0 then none else s.data.get? j.toNat
  else
    s.data.get? i.toNat

/-- Helper for `bytes.find`: first match index of `needle` in `l`,
offset by the accumulator `i`. -/
def subFindAux (needle : List Char) : List Char → Nat → Option Nat
  | [], _ => none
  | c :: tl, i =>
      if (c :: tl).take needle.length == needle then some i
      else subFindAux needle tl (i + 1)

/-- `hay.find(needle, start, endp)` (Python semantics: the match must lie
entirely inside `hay[start:endp]`; `none` models the `-1` result).
All call sites in the source use non-empty needles. -/
def strFind (hay needle : String) (start : Nat) (endp : Option Nat) : Option Nat :=
  let stop := min (endp.getD hay.data.length) hay.data.length
  (subFindAux needle.data ((hay.data.take stop).drop start) 0).map (· + start)

/-- Python `x or y` on optional byte strings (`None`/`b''` are falsy). -/
def pyOr (a b : Option String) : Option String :=
  if pyTruthy a then a else b

/-- `reader.delimited`: substring strictly between `d1` and `d2`.
The `start` argument may be `None` in the source (treated as 0 by
`bytes.find`). Returns `(None, None)` when either delimiter is missing. -/
def delimited (line d1 d2 : String) (start : Option Nat) (endp : Option Nat)
    (rest : Bool) : Option String × Option Nat :=
  match strFind line d1 (start.getD 0) endp with
  | some a =>
      let ld := d1.data.length
      match strFind line d2 (a + ld) none with
      | some b => (some (pySliceNat line (a + ld) b), some b)
      | none =>
          if rest then (some (pyDropStr line (a + ld)), some line.data.length)
          else (none, none)
  | none => (none, none)

/-- `reader.device_phone`: substring after the last `/`. -/
def device_phone (device_name : String) : String :=
  match strFind device_name "/" 0 none with
  | none => device_name
  | some _ =>
      -- model of bytes.rfind via scanning: we take the last '/' index
      let idx := (List.range device_name.data.length).foldl
        (fun acc i => if device_name.data.get? i = some '/' then some i else acc) none
      match idx with
      | some i => if 0 < i then pyDropStr device_name (i + 1) else device_name
      | none => device_name

/-- `reader.channel_phone`: substring between the last `/` and the
following `-` (if any). -/
def channel_phone (channel_name : String) : String :=
  let idx := (List.range channel_name.data.length).foldl
    (fun acc i => if channel_name.data.get? i = some '/' then some i else acc) none
  match idx with
  | some i =>
      if 0 < i then
        match strFind channel_name "-" i none with
        | some i2 =>
            if 0 < i2 then pySliceNat channel_name (i + 1) i2
            else pyDropStr channel_name (i + 1)
        | none => pyDropStr channel_name (i + 1)
      else channel_name
  | none => channel_name

/-! ## `parse_from_to` (From:/To: header parsing) -/

/-- `reader.parse_from_to`.  Returns `(name, num, addr)`; the outer `none`
models the `IndexError` raised by `line[start]` when `start` is out of
range. -/
def parse_from_to (line : String) (start : Nat) :
    Option (Option String × Option String × Option String) :=
  match pyCharAt line start with
  | none => none
  | some c =>
      let (name, num) :=
        if c = '<' then
          let (num, _) := delimited line "<sip:" ">" (some start) none false
          (none, num)
        else if c = '"' then
          let (name, pos) := delimited line "\"" "\"" (some start) none false
          let (num, _) := delimited line "<sip:" ">" pos none false
          (name, num)
        else
          let (num, pos) := delimited line "<sip:" ">" (some start) none false
          let (name, _) := delimited line " " " " (some start) pos false
          (name, num)
      let numAddr : Option String × Option String :=
        match num with
        | none => (none, none)
        | some n0 =>
            let n1 := match strFind n0 ";" 0 none with
              | some p => if 0 < p then pySliceNat n0 0 p else n0
              | none => n0
            match strFind n1 "@" 0 none with
            | some p =>
                if 0 < p then
                  let numv := pySliceNat n1 0 p
                  let addr := pyDropStr n1 (p + 1)
                  let addr := if (strFind addr ":" 0 none).isNone then addr ++ ":5060" else addr
                  (some numv, some addr)
                else (some n1, none)
            | none => (some n1, none)
      some (name, numAddr.1, numAddr.2)

/-! ## SipMessage -/

/-- `reader.SipMessage` (the fields the modelled methods touch).
`acall` holds the `LogAstCall` reference as its `acall_id` key,
`dialog` holds the `SipDialog` reference as its `call_id` key, and
`request_sip` holds the matched request as its index in the dialog's
`sip_list` at finalize time (arena-style object references).
`attempt_no` is `0` initially and a byte string once set in the source;
it is modelled as `Option String` (`none` = the initial falsy `0`). -/
structure SipMessage where
  line_no : Nat := 0
  direction : String := ""
  peer_addr : Option String := none
  attempt_no : Option String := none
  is_nat : Bool := false
  when : Option String := none
  intro_line : Option String := none
  header : List String := []
  body : List String := []
  request : Option String := none
  request_addr : Option String := none
  status : Option String := none
  from_name : Option String := none
  from_num : Option String := none
  from_addr : Option String := none
  to_name : Option String := none
  to_num : Option String := none
  to_addr : Option String := none
  call_id : Option String := none
  cseq : Option String := none
  via_addr : Option String := none
  sender_addr : Option String := none
  recipient_addr : Option String := none
  acall : Option String := none
  dialog : Option String := none
  request_sip : Option Nat := none
  whr : Nat := 0
deriving DecidableEq, Repr

/-- `SipMessage.__init__`. -/
def SipMessage.init (line_no : Nat) (direction : String) (peer_addr : Option String)
    (is_nat : Bool) (when : Option String) (acall : Option String)
    (intro_line : Option String) : SipMessage :=
  { line_no := line_no, direction := direction, peer_addr := peer_addr,
    is_nat := is_nat, when := when, acall := acall, intro_line := intro_line }

/-- `SipMessage.add_header`.  `none` models the unhandled exceptions of the
source (`line.index(b' ')` raising `ValueError`, `None.find` raising
`AttributeError`, `parse_from_to` raising `IndexError`). -/
def SipMessage.add_header (m : SipMessage) (line : String) : Option SipMessage :=
  let m' : Option SipMessage :=
    if m.header = [] then
      if pyStartsWith line "SIP/2.0" then
        some { m with status := some (pyDropStr line 8) }
      else
        match strFind line " " 0 none with
        | none => none   -- line.index(b' ') raises ValueError
        | some pos =>
            let req := pySliceNat line 0 pos
            match delimited line "sip:" " " (some pos) none false with
            | (none, _) => none   -- self.request_addr.find would raise
            | (some ra0, _) =>
                let ra1 :=
                  match strFind ra0 "@" 0 none with
                  | some p => if 0 < p then pyDropStr ra0 (p + 1) else ra0
                  | none => ra0
                let ra2 :=
                  match strFind ra1 ";" 0 none with
                  | some p => if 0 < p then pySliceNat ra1 0 p else ra1
                  | none => ra1
                some { m with request := some req, request_addr := some ra2 }
    else
      if pyStartsWith line "From:" then
        match parse_from_to line 6 with
        | none => none
        | some (n, nu, a) => some { m with from_name := n, from_num := nu, from_addr := a }
      else if pyStartsWith line "To:" then
        match parse_from_to line 4 with
        | none => none
        | some (n, nu, a) => some { m with to_name := n, to_num := nu, to_addr := a }
      else if pyStartsWith line "Call-ID:" then
        some { m with call_id := some (pyDropStr line 9) }
      else if pyStartsWith line "Via:" then
        some { m with via_addr := (delimited line " " ";" (some 14) none false).1 }
      else if pyStartsWith line "CSeq:" then
        some { m with cseq := some (pyDropStr line 6) }
      else
        some m
  m'.map (fun m2 => { m2 with header := m2.header ++ [line] })

/-- `SipMessage.add_line`: the assembler state machine over
`whr = self._where ∈ {0 HEADER, 1 PRE-BODY, 2 BODY, 3 AFTER-BLANK}`.
Returns `(accepted, updated message)`; `none` models an `add_header`
exception. -/
def SipMessage.add_line (m : SipMessage) (line : String) : Option (Bool × SipMessage) :=
  if pyStartsWith line "<--" || pyStartsWith line "---" then
    some (false, m)
  else if m.whr = 0 then
    if line != "" then
      (m.add_header line).map (fun m' => (true, m'))
    else
      some (true, { m with whr := 1 })
  else if m.whr = 1 then
    if line != "" then
      some (true, { m with body := m.body ++ [line], whr := 2 })
    else
      some (false, m)
  else if m.whr = 2 then
    if line != "" then
      some (true, { m with body := m.body ++ [line] })
    else
      some (true, { m with whr := 3 })
  else
    if line != "" then
      some (true, { m with body := m.body ++ ["", line], whr := 2 })
    else
      some (false, m)

/-- `SipMessage.finalize_sip`, first phase: the reverse scan of the owning
dialog's `sip_list` for the request matching this response's `cseq`.
Returns the index in `dialog_sips`. -/
def find_request_sip (dialog_sips : List SipMessage) (cseq : Option String) : Option Nat :=
  (List.range dialog_sips.length).reverse.find? (fun i =>
    match dialog_sips.get? i with
    | some s => pyTruthy s.request && s.cseq == cseq
    | none => false)

/-- `SipMessage.finalize_sip`.  `dialog_sips` is the owning dialog's
`sip_list` at call time (the message itself is appended only afterwards,
by `SipDialog.add_sip`). -/
def SipMessage.finalize_sip (m : SipMessage) (dialog_sips : List SipMessage) : SipMessage :=
  let m1 :=
    if !pyTruthy m.request && m.dialog.isSome then
      match find_request_sip dialog_sips m.cseq with
      | some i => { m with request_sip := some i }
      | none => m
    else m
  if pyTruthy m1.request then
    if m1.direction = "IN" then
      { m1 with sender_addr := m1.via_addr,
                recipient_addr := pyOr m1.to_addr m1.request_addr }
    else
      { m1 with sender_addr := m1.via_addr, recipient_addr := m1.request_addr }
  else
    if m1.direction = "IN" then
      let m2 :=
        match m1.request_sip with
        | some i =>
            match dialog_sips.get? i with
            | some s => { m1 with sender_addr := s.recipient_addr }
            | none => m1    -- unreachable: the index is valid by construction
        | none => m1
      { m2 with recipient_addr := m2.via_addr }
    else
      { m1 with sender_addr := m1.to_addr, recipient_addr := m1.via_addr }

/-! ## SipDialog -/

/-- `reader.SipDialog`.  `timeout` is `(line_no, when)`. -/
structure SipDialogSt where
  call_id : Option String := none
  sip_list : List SipMessage := []
  request : Option String := none
  dialog_status : Option String := none
  dialog_ack : Option String := none
  is_establishing : Bool := false
  was_established : Bool := false
  had_bye : Bool := false
  bye_addr : Option String := none
  timeout : Option (Nat × String) := none
deriving DecidableEq, Repr

/-- `SipDialog.__init__`. -/
def SipDialog.init (call_id : Option String) (sip : SipMessage) : SipDialogSt :=
  { call_id := call_id, sip_list := [], request := sip.request,
    dialog_status := none, dialog_ack := none,
    is_establishing := sip.request = some "INVITE",
    was_established := false, had_bye := false, bye_addr := none,
    timeout := none }

/-- `SipDialog.add_sip`: the dialog state machine. -/
def SipDialog.add_sip (d : SipDialogSt) (sip : SipMessage) : SipDialogSt :=
  let d' :=
    if sip.request = some "INVITE" then
      -- multiple INVITE messages reset the establishing phase
      { d with is_establishing := true }
    else if d.is_establishing then
      if pyTruthy sip.status then
        { d with dialog_status := sip.status }
      else if sip.request = some "ACK" then
        let d1 := { d with dialog_ack := sip.request, is_establishing := false }
        if pyTruthy d.dialog_status then
          if pyStartsWith (d.dialog_status.getD "") "1" then
            { d1 with was_established := true }
          else if pyStartsWith (d.dialog_status.getD "") "2" then
            { d1 with was_established := true }
          else d1
        else d1
      else d
    else if d.was_established && !d.had_bye then
      if sip.request = some "BYE" then
        { d with bye_addr := sip.sender_addr, had_bye := true }
      else d
    else if d.request ≠ some "INVITE" && pyTruthy sip.status then
      { d with dialog_status := sip.status }
    else d
  { d' with sip_list := d'.sip_list ++ [sip] }

/-- A dialog run: the first message both creates the dialog
(`SipDialog(sip.call_id, sip)` in `LogParser.finish_sip`) and is added to
it, followed by the remaining messages in order. -/
def run_dialog (m0 : SipMessage) (rest : List SipMessage) : SipDialogSt :=
  (m0 :: rest).foldl SipDialog.add_sip (SipDialog.init m0.call_id m0)

/-- The exact condition under which one `add_sip` call sets
`was_established`: an ACK arrives while establishing and the most recently
recorded `dialog_status` starts with `1` or `2`. -/
def establishTrigger (d : SipDialogSt) (sip : SipMessage) : Bool :=
  !(sip.request = some "INVITE") && d.is_establishing
    && !pyTruthy sip.status && (sip.request = some "ACK")
    && pyTruthy d.dialog_status
    && (pyStartsWith (d.dialog_status.getD "") "1"
        || pyStartsWith (d.dialog_status.getD "") "2")

/-- Amended establishment condition over a trace: some message triggers the
ACK branch with a `1xx`/`2xx` `dialog_status`, starting from state `d`. -/
def ackEstablishes (d : SipDialogSt) : List SipMessage → Bool
  | [] => false
  | m :: rest => establishTrigger d m || ackEstablishes (SipDialog.add_sip d m) rest

/-- The claimed establishment condition (following the specification's
words): some response whose status begins with `1` or `2` was observed, and
an ACK request was subsequently added while `is_establishing` was true. -/
def dialogStatesFrom (d : SipDialogSt) : List SipMessage → List SipDialogSt
  | [] => [d]
  | m :: rest => d :: dialogStatesFrom (SipDialog.add_sip d m) rest

/-- Spec-side predicate for claim C2 (translated from the claim's words,
for comparison with the source behaviour). -/
def specEstablishedC2 (m0 : SipMessage) (rest : List SipMessage) : Bool :=
  let msgs := m0 :: rest
  let sts := dialogStatesFrom (SipDialog.init m0.call_id m0) msgs
  (List.range msgs.length).any (fun j =>
    (List.range j).any (fun i =>
      (match msgs.get? i with
       | some mi => pyTruthy mi.status
           && (pyStartsWith (mi.status.getD "") "1" || pyStartsWith (mi.status.getD "") "2")
       | none => false)
      &&
      (match msgs.get? j with
       | some mj => mj.request = some "ACK"
       | none => false)
      &&
      (match sts.get? j with
       | some sj => sj.is_establishing
       | none => false)))

/-! ## LogDial -/

/-- One entry of `LogDial.log` / `LogQueue.log`:
`(line_no, when, tag, phone-or-position, device-or-channel)`. -/
structure DialEvent where
  line_no : Nat
  when : Option String
  tag : String
  phone : Option String
  chan : Option String
deriving DecidableEq, Repr

/-- `reader.LogDial` (the fields its methods touch).  The back reference
`channel` is modelled by the owning channel's name; clearing
`channel.current_dial` in `finish`/`nobody_picked_up` is a parser-level
link and is modelled at the parser level, not here. -/
structure LogDialSt where
  channel_name : String := ""
  line_no : Nat := 0
  when : Option String := none
  extension : String := ""
  phones : List String := []
  log : List DialEvent := []
  status : String := "ACTIVE"
  was_busy : Bool := false
deriving DecidableEq, Repr

/-- `LogDial.called`. -/
def LogDial.called (d : LogDialSt) (line_no : Nat) (when : Option String)
    (device_name : String) : LogDialSt :=
  { d with log := d.log ++ [⟨line_no, when, "CALL", some (device_phone device_name), some device_name⟩] }

/-- `LogDial.ringing`. -/
def LogDial.ringing (d : LogDialSt) (line_no : Nat) (when : Option String)
    (chan : String) : LogDialSt :=
  let d := { d with log := d.log ++ [⟨line_no, when, "RINGING", some (channel_phone chan), some chan⟩] }
  if d.status = "ACTIVE" then { d with status := "RINGING" } else d

/-- `LogDial.busy`. -/
def LogDial.busy (d : LogDialSt) (line_no : Nat) (when : Option String)
    (chan : String) : LogDialSt :=
  { d with log := d.log ++ [⟨line_no, when, "BUSY", some (channel_phone chan), some chan⟩],
           was_busy := true }

/-- `LogDial.pickup`. -/
def LogDial.pickup (d : LogDialSt) (line_no : Nat) (when : Option String)
    (ringing_chan : String) : LogDialSt :=
  { d with log := d.log ++ [⟨line_no, when, "PICKUP", some (channel_phone ringing_chan), some ringing_chan⟩],
           status := "PICKUP" }

/-- `LogDial.answered` (the branch where `chan1` equals the owning
channel's name; otherwise only a debug message is emitted). -/
def LogDial.answered (d : LogDialSt) (line_no : Nat) (when : Option String)
    (chan1 chan2 : String) : LogDialSt :=
  if chan1 = d.channel_name then
    { d with log := d.log ++ [⟨line_no, when, "ANSWERED", some (channel_phone chan2), some chan2⟩],
             status := "ANSWERED" }
  else d

/-- `LogDial.nobody_picked_up` (also clears `channel.current_dial`;
modelled at the parser level). -/
def LogDial.nobody_picked_up (d : LogDialSt) (line_no : Nat)
    (when : Option String) : LogDialSt :=
  { d with log := d.log ++ [⟨line_no, when, "NO ANSWER", none, none⟩],
           status := "NO ANSWER" }

/-- `LogDial.finish` (also clears `channel.current_dial`; modelled at the
parser level). -/
def LogDial.finish (d : LogDialSt) : LogDialSt :=
  if d.status = "RINGING" then
    { d with status := "NO ANSWER" }
  else if d.was_busy then
    { d with status := "BUSY" }
  else if d.status ≠ "ANSWERED" ∧ d.status ≠ "NO ANSWER" ∧ d.status ≠ "PICKUP" then
    { d with status := "EXIT" }
  else d

/-- `LogDial.extension_exited`. -/
def LogDial.extension_exited (d : LogDialSt) (line_no : Nat)
    (when : Option String) : LogDialSt :=
  LogDial.finish { d with log := d.log ++ [⟨line_no, when, "EXIT", none, none⟩] }

/-- `LogDial.manager_hangup` (the branch where `chan` equals the owning
channel's name). -/
def LogDial.manager_hangup (d : LogDialSt) (line_no : Nat)
    (when : Option String) (chan : String) : LogDialSt :=
  if chan = d.channel_name then
    LogDial.finish { d with log := d.log ++ [⟨line_no, when, "HANGUP", some "manager", some chan⟩] }
  else d

/-- Spec-side finish rule for claim C5 (translated from the claim's words,
for comparison with `LogDial.finish`): if the status was RINGING it becomes
NO ANSWER; otherwise if a busy event was recorded it becomes BUSY;
otherwise if the status is not ANSWERED, NO ANSWER, or PICKUP it becomes
EXIT; otherwise it is unchanged. -/
def specFinishStatusC5 (status : String) (was_busy : Bool) : String :=
  if status = "RINGING" then "NO ANSWER"
  else if was_busy then "BUSY"
  else if status ≠ "ANSWERED" ∧ status ≠ "NO ANSWER" ∧ status ≠ "PICKUP" then "EXIT"
  else status

/-! ## Association-list model of Python dicts -/

/-- Dict lookup (`d.get(k)`). -/
def alLookup {κ β : Type} [DecidableEq κ] : List (κ × β) → κ → Option β
  | [], _ => none
  | (k', v) :: tl, k => if k' = k then some v else alLookup tl k

/-- Dict store (`d[k] = v`), keeping first-insertion key order. -/
def alInsert {κ β : Type} [DecidableEq κ] : List (κ × β) → κ → β → List (κ × β)
  | [], k, v => [(k, v)]
  | (k', v') :: tl, k, v =>
      if k' = k then (k, v) :: tl else (k', v') :: alInsert tl k v

/-- `d.setdefault(k, []).append(v)`. -/
def alAppend {κ β : Type} [DecidableEq κ] (l : List (κ × List β)) (k : κ) (v : β) :
    List (κ × List β) :=
  alInsert l k ((alLookup l k).getD [] ++ [v])

/-- `d.setdefault(k, set()).add(v)` (sets modelled as duplicate-free lists
in insertion order). -/
def alAddSet {κ β : Type} [DecidableEq κ] [DecidableEq β] (l : List (κ × List β)) (k : κ)
    (v : β) : List (κ × List β) :=
  let xs := (alLookup l k).getD []
  alInsert l k (if v ∈ xs then xs else xs ++ [v])

/-! ## Line tokenizer (`get_line`) -/

/-- `reader.get_line`.  Note the source checks `data[eol - 1]` for a
carriage return: when `eol = 0` the Python index `-1` wraps around to the
last byte of the whole buffer, and the slice `data[data_pos:eol - 1]`
becomes `data[data_pos:-1]`. -/
def get_line (data : String) (data_pos data_len : Nat) : String × Nat :=
  match strFind data "\n" data_pos none with
  | none =>
      -- we are not interested in lines without NL (half lines)
      ("", data_len)
  | some eol =>
      if pyIndexInt data ((eol : Int) - 1) = some '\r' then
        (pySliceToInt data data_pos ((eol : Int) - 1), eol + 1)
      else
        (pySliceNat data data_pos eol, eol + 1)

/-! ## `LogParser.finish_sip` -/

/-- The slice of `reader.LogParser`'s state that `finish_sip` and
`link_call` touch.  `acall_sip_sets` and `acall_call_id_sets` model the
`sip_set` / `call_id_set` attributes of the `LogAstCall` objects, keyed by
`acall_id`. -/
structure LogParserSt where
  dialogs : List (String × SipDialogSt) := []
  call_sip_map : List (String × List SipMessage) := []
  phone_sip_map : List (String × List SipMessage) := []
  call_lines : List (String × List (Nat × String)) := []
  call_acall_map : List (String × List String) := []
  call_timeouts : List (String × (Nat × String)) := []
  acall_sip_sets : List (String × List SipMessage) := []
  acall_call_id_sets : List (String × List String) := []
deriving DecidableEq, Repr

/-- `LogParser.link_call`. -/
def LogParser.link_call (p : LogParserSt) (li : Nat) (line : String)
    (call_id : Option String) (acall : Option String) : LogParserSt :=
  if pyTruthy call_id then
    let c := call_id.getD ""
    let p := { p with call_lines := alAppend p.call_lines c (li, line) }
    match acall with
    | some a =>
        { p with acall_call_id_sets := alAddSet p.acall_call_id_sets a c,
                 call_acall_map := alAddSet p.call_acall_map c a }
    | none => p
  else p

/-- `LogParser.finish_sip`.  Returns the updated parser state and the
finalized message.  The source appends the message *object* to
`call_sip_map` before finalizing it and mutates it in place; the value
model stores the finalized value throughout.  The `dialogs` entry holds the
dialog's state after `add_sip` and the `timeout` assignment. -/
def LogParser.finish_sip (p : LogParserSt) (sip : SipMessage) :
    LogParserSt × SipMessage :=
  let pr :=
    if pyTruthy sip.call_id then
      let c := sip.call_id.getD ""
      let dialog0 :=
        match alLookup p.dialogs c with
        | some d => d
        | none => SipDialog.init sip.call_id sip
      let sip1 := { sip with dialog := some c }
      let sip2 := sip1.finalize_sip dialog0.sip_list
      let dialog1 := SipDialog.add_sip dialog0 sip2
      let dialog2 := { dialog1 with timeout := alLookup p.call_timeouts c }
      let p := { p with call_sip_map := alAppend p.call_sip_map c sip2,
                        dialogs := alInsert p.dialogs c dialog2 }
      let p :=
        if pyTruthy sip.intro_line then
          -- we didn't have call_id at the time of the intro line
          LogParser.link_call p (sip.line_no - 1) (sip.intro_line.getD "")
            sip.call_id sip.acall
        else p
      (p, sip2)
    else (p, sip)
  let p := pr.1
  let sip := pr.2
  let p :=
    match sip.acall with
    | some a => { p with acall_sip_sets := alAddSet p.acall_sip_sets a sip }
    | none => p
  let p :=
    if pyTruthy sip.from_name then
      { p with phone_sip_map := alAppend p.phone_sip_map (sip.from_name.getD "") sip }
    else p
  let p :=
    if pyTruthy sip.from_num then
      { p with phone_sip_map := alAppend p.phone_sip_map (sip.from_num.getD "") sip }
    else p
  let p :=
    if pyTruthy sip.to_name then
      { p with phone_sip_map := alAppend p.phone_sip_map (sip.to_name.getD "") sip }
    else p
  let p :=
    if pyTruthy sip.to_num then
      { p with phone_sip_map := alAppend p.phone_sip_map (sip.to_num.getD "") sip }
    else p
  (p, sip)

/-! ## `app.main` argument validation -/

/-- The mutual-exclusion check of `app.main` (app.py): raised before the
parser is constructed, outside the `try` block, hence fatal to the run. -/
def main_tail_check (from_when to_when : Option String) (tail_minutes : Option Int) :
    Except String Unit :=
  if (pyTruthy from_when || pyTruthy to_when) && pyTruthyInt tail_minutes then
    Except.error "--tail-minutes cannot be used with --from-when/--to-when"
  else
    Except.ok ()

/-! ## Timestamps (`parse_when`, modelling `datetime.strptime` for the four
formats of `TIMESTAMP_FORMATS`) -/

/-- A parsed timestamp (`datetime.datetime`). -/
structure DateTime where
  year : Nat
  month : Nat
  day : Nat
  hour : Nat
  minute : Nat
  second : Nat
  microsecond : Nat
deriving DecidableEq, Repr

/-- `datetime` comparison (lexicographic on the components). -/
def DateTime.le (a b : DateTime) : Bool :=
  if a.year ≠ b.year then a.year < b.year
  else if a.month ≠ b.month then a.month < b.month
  else if a.day ≠ b.day then a.day < b.day
  else if a.hour ≠ b.hour then a.hour < b.hour
  else if a.minute ≠ b.minute then a.minute < b.minute
  else if a.second ≠ b.second then a.second < b.second
  else a.microsecond ≤ b.microsecond

/-- Decimal digit value. -/
def digitVal (c : Char) : Option Nat :=
  if c = '0' then some 0 else if c = '1' then some 1
  else if c = '2' then some 2 else if c = '3' then some 3
  else if c = '4' then some 4 else if c = '5' then some 5
  else if c = '6' then some 6 else if c = '7' then some 7
  else if c = '8' then some 8 else if c = '9' then some 9
  else none

/-- Python `\s` characters. -/
def isPyWs (c : Char) : Bool :=
  c = ' ' || c = '\t' || c = '\n' || c = '\r' || c = '\x0b' || c = '\x0c'

/-- Lower-casing for the case-insensitive `%b` month match. -/
def lcChar (c : Char) : Char :=
  if c = 'A' then 'a' else if c = 'B' then 'b' else if c = 'C' then 'c'
  else if c = 'D' then 'd' else if c = 'E' then 'e' else if c = 'F' then 'f'
  else if c = 'G' then 'g' else if c = 'H' then 'h' else if c = 'I' then 'i'
  else if c = 'J' then 'j' else if c = 'K' then 'k' else if c = 'L' then 'l'
  else if c = 'M' then 'm' else if c = 'N' then 'n' else if c = 'O' then 'o'
  else if c = 'P' then 'p' else if c = 'Q' then 'q' else if c = 'R' then 'r'
  else if c = 'S' then 's' else if c = 'T' then 't' else if c = 'U' then 'u'
  else if c = 'V' then 'v' else if c = 'W' then 'w' else if c = 'X' then 'x'
  else if c = 'Y' then 'y' else if c = 'Z' then 'z' else c

/-- `%Y`: exactly four digits. -/
def parse4Digits : List Char → Option (Nat × List Char)
  | c1 :: c2 :: c3 :: c4 :: rest =>
      match digitVal c1, digitVal c2, digitVal c3, digitVal c4 with
      | some d1, some d2, some d3, some d4 =>
          some (((d1 * 10 + d2) * 10 + d3) * 10 + d4, rest)
      | _, _, _, _ => none
  | _ => none

/-- `%m`: regex `1[0-2]|0[1-9]|[1-9]` (ordered alternation). -/
def parseMonth2 : List Char → Option (Nat × List Char)
  | [] => none
  | c1 :: rest1 =>
      match digitVal c1, rest1 with
      | none, _ => none
      | some d1, [] => if 1 ≤ d1 then some (d1, []) else none
      | some d1, c2 :: rest2 =>
          match digitVal c2 with
          | none => if 1 ≤ d1 then some (d1, c2 :: rest2) else none
          | some d2 =>
              if d1 = 1 && d2 ≤ 2 then some (10 + d2, rest2)
              else if d1 = 0 && 1 ≤ d2 then some (d2, rest2)
              else if 1 ≤ d1 then some (d1, c2 :: rest2)
              else none

/-- `%d`: regex `3[01]|[1-2]\d|0[1-9]|[1-9]`. -/
def parseDay2 : List Char → Option (Nat × List Char)
  | [] => none
  | c1 :: rest1 =>
      match digitVal c1, rest1 with
      | none, _ => none
      | some d1, [] => if 1 ≤ d1 then some (d1, []) else none
      | some d1, c2 :: rest2 =>
          match digitVal c2 with
          | none => if 1 ≤ d1 then some (d1, c2 :: rest2) else none
          | some d2 =>
              if d1 = 3 && d2 ≤ 1 then some (30 + d2, rest2)
              else if (d1 = 1 || d1 = 2) then some (d1 * 10 + d2, rest2)
              else if d1 = 0 && 1 ≤ d2 then some (d2, rest2)
              else if 1 ≤ d1 then some (d1, c2 :: rest2)
              else none

/-- `%H`: regex `2[0-3]|[0-1]\d|\d`. -/
def parseHour2 : List Char → Option (Nat × List Char)
  | [] => none
  | c1 :: rest1 =>
      match digitVal c1, rest1 with
      | none, _ => none
      | some d1, [] => some (d1, [])
      | some d1, c2 :: rest2 =>
          match digitVal c2 with
          | none => some (d1, c2 :: rest2)
          | some d2 =>
              if d1 = 2 && d2 ≤ 3 then some (20 + d2, rest2)
              else if d1 ≤ 1 then some (d1 * 10 + d2, rest2)
              else some (d1, c2 :: rest2)

/-- `%M` and `%S`: regex `[0-5]\d|\d`.  (The real `%S` regex also admits
the leap values 60-61, which the `datetime` constructor then rejects; the
net `parse_when` outcome is identical.) -/
def parseMinSec2 : List Char → Option (Nat × List Char)
  | [] => none
  | c1 :: rest1 =>
      match digitVal c1, rest1 with
      | none, _ => none
      | some d1, [] => some (d1, [])
      | some d1, c2 :: rest2 =>
          match digitVal c2 with
          | none => some (d1, c2 :: rest2)
          | some d2 =>
              if d1 ≤ 5 then some (d1 * 10 + d2, rest2)
              else some (d1, c2 :: rest2)

/-- Up to `n` leading digits. -/
def takeDigits : Nat → List Char → (List Nat × List Char)
  | 0, l => ([], l)
  | _ + 1, [] => ([], [])
  | n + 1, c :: tl =>
      match digitVal c with
      | some d =>
          let p := takeDigits n tl
          (d :: p.1, p.2)
      | none => ([], c :: tl)

/-- `%f`: one to six digits, padded on the right with zeros to
microseconds. -/
def parseFrac (l : List Char) : Option (Nat × List Char) :=
  let p := takeDigits 6 l
  if p.1 = [] then none
  else some ((p.1.foldl (fun a d => a * 10 + d) 0) * 10 ^ (6 - p.1.length), p.2)

/-- A literal format character. -/
def parseLit (ch : Char) : List Char → Option (List Char)
  | [] => none
  | c :: tl => if c = ch then some tl else none

/-- A format-string space: `\s+` (one or more whitespace characters;
greedy, and no format token after it matches whitespace). -/
def parseWs : List Char → Option (List Char)
  | [] => none
  | c :: tl => if isPyWs c then some (tl.dropWhile isPyWs) else none

/-- `%b`: a three-letter month abbreviation, case-insensitive. -/
def parseMonthAbbr : List Char → Option (Nat × List Char)
  | c1 :: c2 :: c3 :: rest =>
      let l := [lcChar c1, lcChar c2, lcChar c3]
      if l = ['j', 'a', 'n'] then some (1, rest)
      else if l = ['f', 'e', 'b'] then some (2, rest)
      else if l = ['m', 'a', 'r'] then some (3, rest)
      else if l = ['a', 'p', 'r'] then some (4, rest)
      else if l = ['m', 'a', 'y'] then some (5, rest)
      else if l = ['j', 'u', 'n'] then some (6, rest)
      else if l = ['j', 'u', 'l'] then some (7, rest)
      else if l = ['a', 'u', 'g'] then some (8, rest)
      else if l = ['s', 'e', 'p'] then some (9, rest)
      else if l = ['o', 'c', 't'] then some (10, rest)
      else if l = ['n', 'o', 'v'] then some (11, rest)
      else if l = ['d', 'e', 'c'] then some (12, rest)
      else none
  | _ => none

/-- Gregorian leap year. -/
def isLeapYear (y : Nat) : Bool :=
  y % 4 = 0 && (y % 100 ≠ 0 || y % 400 = 0)

/-- Days in a month. -/
def daysInMonth (y m : Nat) : Nat :=
  if m = 2 then (if isLeapYear y then 29 else 28)
  else if m = 4 || m = 6 || m = 9 || m = 11 then 30
  else 31

/-- The `datetime` constructor's validation (raises `ValueError`, which
`parse_when` turns into trying the next format / returning `None`). -/
def mkDateTime (y mo d h mi s us : Nat) : Option DateTime :=
  if 1 ≤ y ∧ y ≤ 9999 ∧ 1 ≤ mo ∧ mo ≤ 12 ∧ 1 ≤ d ∧ d ≤ daysInMonth y mo
      ∧ h ≤ 23 ∧ mi ≤ 59 ∧ s ≤ 59 ∧ us ≤ 999999 then
    some ⟨y, mo, d, h, mi, s, us⟩
  else none

/-- The common `%H:%M:%S` tail; returns `(h, mi, s, rest)`. -/
def parseHMS (l : List Char) : Option (Nat × Nat × Nat × List Char) :=
  (parseHour2 l).bind fun ph =>
  (parseLit ':' ph.2).bind fun r1 =>
  (parseMinSec2 r1).bind fun pm =>
  (parseLit ':' pm.2).bind fun r2 =>
  (parseMinSec2 r2).bind fun ps =>
  some (ph.1, pm.1, ps.1, ps.2)

/-- `strptime(s, '%Y-%m-%d %H:%M:%S.%f')` (full match required). -/
def strptimeYmdHMSf (s : String) : Option DateTime :=
  (parse4Digits s.data).bind fun py =>
  (parseLit '-' py.2).bind fun r1 =>
  (parseMonth2 r1).bind fun pmo =>
  (parseLit '-' pmo.2).bind fun r2 =>
  (parseDay2 r2).bind fun pd =>
  (parseWs pd.2).bind fun r3 =>
  (parseHMS r3).bind fun phms =>
  (parseLit '.' phms.2.2.2).bind fun r4 =>
  (parseFrac r4).bind fun pf =>
  if pf.2 = [] then mkDateTime py.1 pmo.1 pd.1 phms.1 phms.2.1 phms.2.2.1 pf.1
  else none

/-- `strptime(s, '%Y-%m-%d %H:%M:%S')`. -/
def strptimeYmdHMS (s : String) : Option DateTime :=
  (parse4Digits s.data).bind fun py =>
  (parseLit '-' py.2).bind fun r1 =>
  (parseMonth2 r1).bind fun pmo =>
  (parseLit '-' pmo.2).bind fun r2 =>
  (parseDay2 r2).bind fun pd =>
  (parseWs pd.2).bind fun r3 =>
  (parseHMS r3).bind fun phms =>
  if phms.2.2.2 = [] then mkDateTime py.1 pmo.1 pd.1 phms.1 phms.2.1 phms.2.2.1 0
  else none

/-- `strptime(s, '%b %d %H:%M:%S.%f')` (year defaults to 1900). -/
def strptimeBdHMSf (s : String) : Option DateTime :=
  (parseMonthAbbr s.data).bind fun pmo =>
  (parseWs pmo.2).bind fun r1 =>
  (parseDay2 r1).bind fun pd =>
  (parseWs pd.2).bind fun r2 =>
  (parseHMS r2).bind fun phms =>
  (parseLit '.' phms.2.2.2).bind fun r3 =>
  (parseFrac r3).bind fun pf =>
  if pf.2 = [] then mkDateTime 1900 pmo.1 pd.1 phms.1 phms.2.1 phms.2.2.1 pf.1
  else none

/-- `strptime(s, '%b %d %H:%M:%S')`. -/
def strptimeBdHMS (s : String) : Option DateTime :=
  (parseMonthAbbr s.data).bind fun pmo =>
  (parseWs pmo.2).bind fun r1 =>
  (parseDay2 r1).bind fun pd =>
  (parseWs pd.2).bind fun r2 =>
  (parseHMS r2).bind fun phms =>
  if phms.2.2.2 = [] then mkDateTime 1900 pmo.1 pd.1 phms.1 phms.2.1 phms.2.2.1 0
  else none

/-- `reader.parse_when`: the four formats tried in order, `None` when all
fail. -/
def parse_when (when : String) : Option DateTime :=
  match strptimeYmdHMSf when with
  | some t => some t
  | none =>
      match strptimeYmdHMS when with
      | some t => some t
      | none =>
          match strptimeBdHMSf when with
          | some t => some t
          | none => strptimeBdHMS when

/-! ## `read_when` and `find_file_position` -/

/-- The body of `reader.read_when`'s scan loop.  The fuel argument bounds
the iteration count; `data_len + 1 - data_pos` iterations always suffice
because `get_line` strictly advances the position while it is below
`data_len`. -/
def read_when_loop (data : String) (data_len : Nat) : Nat → Nat → Option (String × Nat)
  | 0, _ => none
  | fuel + 1, data_pos =>
      if data_pos < data_len then
        let lp := get_line data data_pos data_len
        let found : Option (String × Nat) :=
          if lp.1 != "" && (pyCharAt lp.1 0 == some '[') then
            match strFind lp.1 "]" 0 none with
            | some idx =>
                if 0 < idx then some (pySliceNat lp.1 1 idx, data_pos) else none
            | none => none
          else none
        match found with
        | some r => some r
        | none => read_when_loop data data_len fuel lp.2
      else none

/-- `reader.read_when`: the first timestamped line of a buffer, returning
the bracket contents and the line's start offset (`none` models the
`(None, None)` results). -/
def read_when (data : String) : Option (String × Nat) :=
  if data = "" then none
  else read_when_loop data data.data.length (data.data.length + 1) 0

/-- The body of `reader.find_file_position`'s bisection loop
(`for cnt in range(40)` with its three `break` conditions).  `a`, `b`,
`file_pos` are byte offsets (the source's Python ints stay in `[0, size]`
here, so `Nat` arithmetic coincides). -/
def ffp_loop (data : String) (direction : String) (ts : DateTime) :
    Nat → Nat → Nat → Nat → Option Nat → Option Nat
  | 0, _, _, _, good => good
  | cnt + 1, file_pos, a, b, good =>
      let new_file_pos := a + (b - a) / 2
      if new_file_pos = file_pos then good
      else
        let fp := new_file_pos
        let window := pySliceNat data fp (fp + 64000)
        match read_when window with
        | none => good
        | some (w, pos) =>
            if w = "" then good
            else
              match parse_when w with
              | none => good
              | some t =>
                  if direction = "after" then
                    if DateTime.le ts t then
                      -- good_pos := file_pos + pos; b := file_pos
                      if fp = a then some (fp + pos)
                      else ffp_loop data direction ts cnt fp a fp (some (fp + pos))
                    else
                      -- a := file_pos
                      if b = fp then good
                      else ffp_loop data direction ts cnt fp fp b good
                  else
                    if DateTime.le t ts then
                      -- good_pos := file_pos + pos; a := file_pos
                      if b = fp then some (fp + pos)
                      else ffp_loop data direction ts cnt fp fp b (some (fp + pos))
                    else
                      -- b := file_pos
                      if fp = a then good
                      else ffp_loop data direction ts cnt fp a fp good

/-- `reader.find_file_position` over an in-memory byte buffer (the file
object's seek/read pair becomes a slice).  The CDR variant
(`is_cdr=True`, which probes with `read_cdr_when` and is used only by the
optional CDR enrichment pass) is outside the claims and not modelled. -/
def find_file_position (data : String) (when : String) (direction : String) :
    Option Nat :=
  match parse_when when with
  | none => none
  | some ts => ffp_loop data direction ts 40 0 0 data.data.length none

/-- The timestamp tag found at byte offset `g` of the buffer: the line
starting at `g` (per `get_line`), provided it begins with `[` and contains
`]`, yields the bracket contents — exactly `read_when`'s per-line
extraction. -/
def timestamp_line_at (data : String) (g : Nat) : Option String :=
  let lp := get_line data g data.data.length
  if lp.1 != "" && (pyCharAt lp.1 0 == some '[') then
    match strFind lp.1 "]" 0 none with
    | some idx => if 0 < idx then some (pySliceNat lp.1 1 idx) else none
    | none => none
  else none

/-- The property the bisection's returned offset always has: the line
starting there is timestamped and its timestamp lies on the requested side
of the bound (`≥` in `after` mode, `≤` otherwise). -/
def GoodAt (data direction : String) (ts : DateTime) (g : Nat) : Prop :=
  ∃ w t, timestamp_line_at data g = some w ∧ parse_when w = some t ∧
    (direction = "after" → DateTime.le ts t = true) ∧
    (direction ≠ "after" → DateTime.le t ts = true)

/-! ## Concrete fixtures used by witnesses and counterexamples -/

/-- A log buffer whose timestamps are NOT in increasing order
(offsets 0, 24, 48). -/
def fxLogUnsorted : String :=
  "[2024-01-01 10:00:05] x\n[2024-01-01 10:00:01] y\n[2024-01-01 10:00:03] z\n"

/-- A second unsorted log buffer (offsets 0, 24, 48, 72). -/
def fxLogUnsorted2 : String :=
  "[2024-01-01 10:00:05] a\n[2024-01-01 10:00:01] b\n[2024-01-01 10:00:07] c\n[2024-01-01 10:00:03] d\n"

/-- A log buffer with increasing timestamps (offsets 0, 24). -/
def fxLogSorted : String :=
  "[2024-01-01 10:00:00] a\n[2024-01-01 10:00:05] b\n"

/-- An INVITE request message. -/
def fxInvite : SipMessage := { request := some "INVITE" }

/-- A provisional `180 Ringing` response. -/
def fx180 : SipMessage := { status := some "180 Ringing" }

/-- A `486 Busy` failure response. -/
def fx486 : SipMessage := { status := some "486 Busy" }

/-- An ACK request. -/
def fxAck : SipMessage := { request := some "ACK" }

/-- A `200 OK` response. -/
def fx200 : SipMessage := { status := some "200 OK" }

/-- A BYE request carrying a sender address. -/
def fxBye : SipMessage := { request := some "BYE", sender_addr := some "1.2.3.4:5060" }

/-- A freshly created assembler message (as built by `LogParser.sip`). -/
def fxFresh : SipMessage :=
  SipMessage.init 5 "IN" (some "10.0.0.1:5060") false (some "2024-01-01 10:00:00") none none

/-- A fully headed incoming INVITE used by the C1 witness. -/
def fxReqIn : SipMessage :=
  { direction := "IN", request := some "INVITE",
    via_addr := some "10.0.0.2:5060", to_addr := some "10.0.0.1:5060",
    request_addr := some "10.0.0.9:5060" }

/-- A message with From/To phone fields but no Call-ID (C10 witness). -/
def fxNoCallId : SipMessage :=
  { direction := "IN", request := some "OPTIONS",
    from_name := some "Alice", from_num := some "100",
    to_name := some "Bob", to_num := some "200" }

/-! ## Linked-object traversal (`LogParser.get_linked_objects`, reader.py:1113-1274)

The traversal walks an object graph of `SipMessage`s, `AstCall`s and
`LogChannel`s.  The graph is modelled as an arena: every object lives in a
list on `TravParser` and is referred to by its index, so Python's object
identity (used by the `mark_*_set`s and by the `o == obj` overview match,
since none of these classes defines `__eq__`) becomes index equality. -/

/-- Identity of an object appearing in a group overview. -/
inductive ERef where
  | sip : Nat → ERef
  | acall : Nat → ERef
  | chan : Nat → ERef
deriving DecidableEq, Repr

/-- Value stored in a group's `lines` dict: a verbatim log line or a
reference to a SIP message object. -/
inductive LineVal where
  | text : String → LineVal
  | sipRef : Nat → LineVal
deriving DecidableEq, Repr

/-- `LogGroup` (reader.py:1277-1291): `overview` is a list of
`(line_no, kind, obj)` entries, `lines` a dict `line_no -> (style, line)`. -/
structure LogGroup where
  overview : List (Nat × String × ERef) := []
  lines : List (Nat × String × LineVal) := []
deriving DecidableEq, Repr

/-- `LogGroup.append`. -/
def LogGroup.append (g : LogGroup) (line_no : Nat) (kind : String) (obj : ERef) :
    LogGroup :=
  { g with overview := g.overview ++ [(line_no, kind, obj)] }

/-- `LogGroup.line`: a `verbose` line never overwrites an existing entry. -/
def LogGroup.line (g : LogGroup) (line_no : Nat) (style : String) (v : LineVal) :
    LogGroup :=
  if style = "verbose" ∧ (alLookup g.lines line_no).isSome then g
  else { g with lines := alInsert g.lines line_no (style, v) }

/-- The `AstCall` fields read by the traversal (reader.py:37-51): `sip_set`
and `channel_set` hold arena indices, `lines` is `[(line_no, line), ...]`. -/
structure AstCall where
  acall_id : String := ""
  lines : List (Nat × String) := []
  sip_set : List Nat := []
  channel_set : List Nat := []
  call_id_set : List String := []
deriving DecidableEq, Repr

/-- The `LogChannel` fields read by the traversal (reader.py:281-300). -/
structure LogChannel where
  name : String := ""
  when : Option String := none
  lines : List (Nat × String) := []
  acall_set : List Nat := []
  sip_set : List Nat := []
deriving DecidableEq, Repr

/-- The `LogQueue` field read by the traversal: its channel. -/
structure LogQueue where
  channel : Nat := 0
deriving DecidableEq, Repr

/-- The `LogParser` maps consulted by `get_linked_objects`, with the objects
in arenas (`sips`, `acalls`, `channels`) and object references as indices.
`dialogs` maps a call-id to that dialog's `sip_list`. -/
structure TravParser where
  sips : List SipMessage := []
  dialogs : List (String × List Nat) := []
  call_lines : List (String × List (Nat × String)) := []
  call_acall_map : List (String × List Nat) := []
  call_sip_map : List (String × List Nat) := []
  acalls : List AstCall := []
  channels : List LogChannel := []
  phone_sip_map : List (String × List Nat) := []
  phone_channel_map : List (String × List Nat) := []
  queues : List (String × List LogQueue) := []

/-- Index of the acall with a given id (`self.acalls.get(acall_id)`). -/
def acallIdx (p : TravParser) (acall_id : String) : Option Nat :=
  (List.range p.acalls.length).find? (fun i =>
    match p.acalls.get? i with
    | some a => a.acall_id == acall_id
    | none => false)

/-- Index of the channel with a given name (`self.channels.get(name)`). -/
def chanIdx (p : TravParser) (name : String) : Option Nat :=
  (List.range p.channels.length).find? (fun i =>
    match p.channels.get? i with
    | some c => c.name == name
    | none => false)

/-- `line_no` of the sip at arena index `i` (0 for a dangling index, which
cannot arise in a parser built by the reader). -/
def sipLineNo (p : TravParser) (i : Nat) : Nat :=
  match p.sips.get? i with
  | some m => m.line_no
  | none => 0

/-- The `sip_list` of the dialog that `sips[i]` belongs to, if any. -/
def sipDialogSips (p : TravParser) (i : Nat) : List Nat :=
  match p.sips.get? i with
  | some m =>
      match m.dialog with
      | some c => (alLookup p.dialogs c).getD []
      | none => []
  | none => []

/-- `include_dialog_sips` (reader.py:1124-1128); the set union is returned as
a duplicate-free list. -/
def include_dialog_sips (p : TravParser) (sips : List Nat) : List Nat :=
  (sips ++ sips.foldr (fun s acc => sipDialogSips p s ++ acc) []).eraseDups

/-- Insert into a `le`-sorted list, keeping it sorted. -/
def insertSorted {α : Type} (le : α → α → Bool) (x : α) : List α → List α
  | [] => [x]
  | y :: tl => if le y x then y :: insertSorted le x tl else x :: y :: tl

/-- Insertion sort, modelling Python `list.sort`. -/
def insertionSortBy {α : Type} (le : α → α → Bool) : List α → List α
  | [] => []
  | x :: tl => insertSorted le x (insertionSortBy le tl)

/-- `sort(key=lambda s: s.line_no)`. -/
def sortSipsByLineNo (p : TravParser) (l : List Nat) : List Nat :=
  insertionSortBy (fun a b => decide (sipLineNo p a ≤ sipLineNo p b)) l

/-- Byte-string `<` (lexicographic byte comparison). -/
def strLtB : List Char → List Char → Bool
  | [], [] => false
  | [], _ :: _ => true
  | _ :: _, [] => false
  | c :: cs, d :: ds => if c < d then true else if d < c then false else strLtB cs ds

/-- Python 2 orders `None` below every byte string. -/
def optStrLtB : Option String → Option String → Bool
  | none, none => false
  | none, some _ => true
  | some _, none => false
  | some a, some b => strLtB a.data b.data

/-- Channel sort key `(c.when, c.name)` (reader.py:1201-1202). -/
def chanKeyLt (p : TravParser) (a b : Nat) : Bool :=
  let ka := match p.channels.get? a with
    | some c => (c.when, c.name)
    | none => (none, "")
  let kb := match p.channels.get? b with
    | some c => (c.when, c.name)
    | none => (none, "")
  optStrLtB ka.1 kb.1 || (ka.1 == kb.1 && strLtB ka.2.data kb.2.data)

/-- Overview sort order (`g.overview.sort()`): tuples compare on `line_no`,
then on the kind byte string; a tie beyond that compares the objects, which
Python 2 orders by address (unspecified — equal keys keep their relative
position here). -/
def overviewLe (e1 e2 : Nat × String × ERef) : Bool :=
  decide (e1.1 < e2.1) ||
    (decide (e1.1 = e2.1) && !(strLtB e2.2.1.data e1.2.1.data))

/-- The traversal's mutable state: the `groups` list (stored most-recent
first, so `groups[-1]` is the head) and the four mark sets. -/
structure TravSt where
  groups_rev : List LogGroup := []
  mark_call_set : List (Option String) := []
  mark_sip_set : List Nat := []
  mark_acall_set : List Nat := []
  mark_channel_set : List Nat := []

/-- `groups.append(LogGroup())`. -/
def TravSt.new_group (st : TravSt) : TravSt :=
  { st with groups_rev := (⟨[], []⟩ : LogGroup) :: st.groups_rev }

/-- `groups[-1].line(...)`; every call site in the source appends a group
first, so the empty case is unreachable. -/
def TravSt.cur_line (st : TravSt) (line_no : Nat) (style : String) (v : LineVal) :
    TravSt :=
  match st.groups_rev with
  | [] => st
  | g :: rest => { st with groups_rev := g.line line_no style v :: rest }

/-- `groups[-1].append(...)`; the empty case is unreachable as above. -/
def TravSt.cur_append (st : TravSt) (line_no : Nat) (kind : String) (obj : ERef) :
    TravSt :=
  match st.groups_rev with
  | [] => st
  | g :: rest => { st with groups_rev := g.append line_no kind obj :: rest }

/-- Running minimum of the `line_no`s, `None` when there are none
(the `min_line_no` loops of `add_acall`/`add_channel`). -/
def minLineNo (l : List (Nat × String)) : Option Nat :=
  l.foldl (fun acc pr =>
    match acc with
    | none => some pr.1
    | some m => if pr.1 < m then some pr.1 else some m) none

/-- `sip.dialog.start_sip if sip.dialog else sip` as an arena index
(reader.py:1139).  A missing or empty dialog would leave the source with
`s = None` and crash on `s.line_no`; it cannot occur under `trav_wf`, and the
fallback `i` is arbitrary. -/
def dialogStartRef (p : TravParser) (i : Nat) (sip : SipMessage) : Nat :=
  match sip.dialog with
  | some c =>
      match alLookup p.dialogs c with
      | some (s0 :: _) => s0
      | _ => i
  | none => i

mutual

/-- `add_sip` (reader.py:1130-1150).  `fuel = max_depth + 1 - level`, so the
`level > max_depth` cutoff is the fuel-0 case; `none` is a `None` argument. -/
def trav_add_sip (p : TravParser) : Nat → Option Nat → TravSt → TravSt
  | _, none, st => st
  | fuel, some i, st =>
      if i ∈ st.mark_sip_set then st
      else
        match fuel, p.sips.get? i with
        | 0, _ => st
        | _, none => st
        | fuel' + 1, some sip =>
            let st := { st with mark_sip_set := i :: st.mark_sip_set }
            let st := st.cur_line sip.line_no "sip" (LineVal.sipRef i)
            let st :=
              if sip.call_id ∈ st.mark_call_set then st
              else
                let st := { st with mark_call_set := sip.call_id :: st.mark_call_set }
                let sref : Nat := dialogStartRef p i sip
                let st := st.cur_append (sipLineNo p sref) "dialog" (ERef.sip sref)
                let cls : List (Nat × String) :=
                  match sip.call_id with
                  | some c => (alLookup p.call_lines c).getD []
                  | none => []
                cls.foldl (fun st pr => st.cur_line pr.1 "verbose" (LineVal.text pr.2)) st
            let st := trav_add_acall p fuel' (sip.acall.bind (acallIdx p)) st
            let acs : List Nat :=
              match sip.call_id with
              | some c => (alLookup p.call_acall_map c).getD []
              | none => []
            let st := trav_add_acall_list p fuel' acs st
            trav_add_sip_list p fuel' (include_dialog_sips p [i]) st
termination_by fuel _ _ => (fuel, 0)

/-- `add_acall` (reader.py:1152-1175). -/
def trav_add_acall (p : TravParser) : Nat → Option Nat → TravSt → TravSt
  | _, none, st => st
  | fuel, some i, st =>
      if i ∈ st.mark_acall_set then st
      else
        match fuel, p.acalls.get? i with
        | 0, _ => st
        | _, none => st
        | fuel' + 1, some ac =>
            let st := { st with mark_acall_set := i :: st.mark_acall_set }
            let st := ac.lines.foldl
              (fun st pr => st.cur_line pr.1 "verbose" (LineVal.text pr.2)) st
            let st :=
              match minLineNo ac.lines with
              | some ln => st.cur_append ln "astcall" (ERef.acall i)
              | none => st
            let st := trav_add_channel_list p fuel' ac.channel_set st
            let sip_set := (ac.sip_set ++ ac.call_id_set.foldr
              (fun c acc => (alLookup p.call_sip_map c).getD [] ++ acc) []).eraseDups
            let sip_list := sortSipsByLineNo p (include_dialog_sips p sip_set)
            trav_add_sip_list p fuel' sip_list st
termination_by fuel _ _ => (fuel, 0)

/-- `add_channel` (reader.py:1177-1194). -/
def trav_add_channel (p : TravParser) : Nat → Option Nat → TravSt → TravSt
  | _, none, st => st
  | fuel, some i, st =>
      if i ∈ st.mark_channel_set then st
      else
        match fuel, p.channels.get? i with
        | 0, _ => st
        | _, none => st
        | fuel' + 1, some ch =>
            let st := { st with mark_channel_set := i :: st.mark_channel_set }
            let st := ch.lines.foldl
              (fun st pr => st.cur_line pr.1 "channel" (LineVal.text pr.2)) st
            let st :=
              match minLineNo ch.lines with
              | some ln => st.cur_append ln "channel" (ERef.chan i)
              | none => st
            let st := trav_add_acall_list p fuel' ch.acall_set st
            trav_add_sip_list p fuel' (sortSipsByLineNo p ch.sip_set) st
termination_by fuel _ _ => (fuel, 0)

/-- `for sip in ...: add_sip(sip, level + 1)`. -/
def trav_add_sip_list (p : TravParser) : Nat → List Nat → TravSt → TravSt
  | _, [], st => st
  | fuel, s :: rest, st =>
      trav_add_sip_list p fuel rest (trav_add_sip p fuel (some s) st)
termination_by fuel l _ => (fuel, l.length + 1)

/-- `for acall in ...: add_acall(acall, level + 1)`. -/
def trav_add_acall_list (p : TravParser) : Nat → List Nat → TravSt → TravSt
  | _, [], st => st
  | fuel, a :: rest, st =>
      trav_add_acall_list p fuel rest (trav_add_acall p fuel (some a) st)
termination_by fuel l _ => (fuel, l.length + 1)

/-- `for channel in ...: add_channel(channel, level + 1)`. -/
def trav_add_channel_list (p : TravParser) : Nat → List Nat → TravSt → TravSt
  | _, [], st => st
  | fuel, c :: rest, st =>
      trav_add_channel_list p fuel rest (trav_add_channel p fuel (some c) st)
termination_by fuel l _ => (fuel, l.length + 1)

end

/-- `link_all` (reader.py:1196-1229): seeds the traversal from the parser's
maps; `fuel` is `max_depth + 1`. -/
def link_all (p : TravParser) (ref : String) (fuel : Nat) : TravSt :=
  let st : TravSt := ⟨[], [], [], [], []⟩
  let st :=
    match alLookup p.phone_sip_map ref with
    | some l =>
        if l.isEmpty then st
        else
          (sortSipsByLineNo p (include_dialog_sips p l)).foldl
            (fun st s => trav_add_sip p fuel (some s) st.new_group) st
    | none => st
  let st :=
    match alLookup p.phone_channel_map ref with
    | some l =>
        if l.isEmpty then st
        else
          (insertionSortBy (fun a b => !(chanKeyLt p b a)) l).foldl
            (fun st c => trav_add_channel p fuel (some c) st.new_group) st
    | none => st
  let st :=
    match alLookup p.queues ref with
    | some qs =>
        qs.foldl (fun st q => trav_add_channel p fuel (some q.channel) st.new_group) st
    | none => st
  let st :=
    match chanIdx p ref with
    | some c => trav_add_channel p fuel (some c) st.new_group
    | none => st
  match (alLookup p.call_sip_map ref).getD [] with
  | [] => st
  | s :: _ => trav_add_sip p fuel (some s) st.new_group

/-- First `line_no` of a sorted overview — the group sort key
`gr.overview[0][0]` (groups reaching the sort are non-empty). -/
def groupKey (g : LogGroup) : Nat :=
  match g.overview with
  | e :: _ => e.1
  | [] => 0

/-- The preparation `isolate_groups` performs before matching: drop empty
groups, sort every overview, sort the groups by first overview line
(reader.py:1232-1235). -/
def prep_groups (gs : List LogGroup) : List LogGroup :=
  let gs := gs.filter (fun g => !g.overview.isEmpty)
  let gs := gs.map (fun g => { g with overview := insertionSortBy overviewLe g.overview })
  insertionSortBy (fun g1 g2 => decide (groupKey g1 ≤ groupKey g2)) gs

/-- `sip_ref.rpartition(b'/')` without the separator component. -/
def rpartitionSlash (s : String) : String × String :=
  match (List.range s.data.length).foldl
      (fun acc i => if s.data.get? i = some '/' then some i else acc) none with
  | some i => (⟨s.data.take i⟩, ⟨s.data.drop (i + 1)⟩)
  | none => ("", s)

/-- `find_sip_by_ref` (reader.py:1074-1079): `sip_ref` is
`call_id + b'/' + str(line_no + 1)`. -/
def find_sip_by_ref (p : TravParser) (sip_ref : String) : Option Nat :=
  let pr := rpartitionSlash sip_ref
  ((alLookup p.call_sip_map pr.1).getD []).find? (fun sid =>
    match p.sips.get? sid with
    | some m => Nat.repr (m.line_no + 1) == pr.2
    | none => false)

/-- The isolate-resolution step of `isolate_groups` (reader.py:1237-1253):
maps the `(ref_type, obj_ref)` tuple to the overview kind to search for and
the object to match.  `none` covers every case where the source's `obj` ends
up falsy (unknown id, dialog without messages) and the search is skipped;
when `find_sip_by_ref` misses, the source instead crashes on `sip.dialog`. -/
def resolve_isolate (p : TravParser) (ref_type obj_ref : String) :
    Option (String × ERef) :=
  if ref_type = "call_id" then
    match alLookup p.dialogs obj_ref with
    | some (s0 :: _) => some ("dialog", ERef.sip s0)
    | _ => none
  else if ref_type = "sip_ref" then
    match find_sip_by_ref p obj_ref with
    | some i =>
        match p.sips.get? i with
        | some m =>
            match m.dialog with
            | some c =>
                match alLookup p.dialogs c with
                | some (s0 :: _) => some ("dialog", ERef.sip s0)
                | _ => none
            | none => some ("dialog", ERef.sip i)
        | none => none
    | none => none
  else if ref_type = "chan" then
    (chanIdx p obj_ref).map (fun i => ("channel", ERef.chan i))
  else if ref_type = "acall_id" then
    (acallIdx p obj_ref).map (fun i => ("astcall", ERef.acall i))
  else none

/-- `isolate_groups` (reader.py:1231-1261).  `isolate = none` models the
default `(None, None)` tuple. -/
def isolate_groups (p : TravParser) (isolate : Option (String × String))
    (all_groups : List LogGroup) : List LogGroup :=
  let gs := prep_groups all_groups
  match isolate with
  | none => gs
  | some pr =>
      match resolve_isolate p pr.1 pr.2 with
      | none => gs
      | some fo =>
          match gs.find? (fun g =>
              g.overview.any (fun e => decide (e.2.1 = fo.1 ∧ e.2.2 = fo.2))) with
          | some g => [g]
          | none => []

/-- `get_objects` (reader.py:1263-1268); dict iteration is modelled in
insertion order. -/
def get_objects (gs : List LogGroup) : List (Nat × String × LineVal) :=
  gs.foldl (fun objs g =>
    g.lines.foldl (fun objs pr => alInsert objs pr.1 pr.2) objs) []

/-- `get_linked_objects` (reader.py:1113-1274). -/
def get_linked_objects (p : TravParser) (ref : String)
    (isolate : Option (String × String)) (max_depth : Nat) :
    List LogGroup × List (Nat × String × LineVal) :=
  let st := link_all p ref (max_depth + 1)
  let groups := isolate_groups p isolate st.groups_rev.reverse
  (groups, get_objects groups)

/-- Number of overview entries `(_, k, r)` across a list of groups. -/
def groupsMatchCount (gs : List LogGroup) (k : String) (r : ERef) : Nat :=
  (gs.map (fun g => g.overview.countP (fun e => decide (e.2.1 = k ∧ e.2.2 = r)))).sum

/-- `groupsMatchCount` over the traversal state's group list. -/
def entryCount (st : TravSt) (k : String) (r : ERef) : Nat :=
  groupsMatchCount st.groups_rev k r

/-- `call_id` of the sip at index `x` — the key `mark_call_set` records when
a dialog entry for `x` is emitted. -/
def sipCallKey (p : TravParser) (x : Nat) : Option String :=
  match p.sips.get? x with
  | some m => m.call_id
  | none => none

/-- The traversal's uniqueness invariant: an entity whose guard key is
unmarked has no overview entry yet, and any entity has at most one. -/
def trav_inv (p : TravParser) (st : TravSt) : Prop :=
  (∀ x : Nat,
    (sipCallKey p x ∉ st.mark_call_set → entryCount st "dialog" (ERef.sip x) = 0) ∧
    entryCount st "dialog" (ERef.sip x) ≤ 1) ∧
  (∀ i : Nat,
    (i ∉ st.mark_acall_set → entryCount st "astcall" (ERef.acall i) = 0) ∧
    entryCount st "astcall" (ERef.acall i) ≤ 1) ∧
  (∀ i : Nat,
    (i ∉ st.mark_channel_set → entryCount st "channel" (ERef.chan i) = 0) ∧
    entryCount st "channel" (ERef.chan i) ≤ 1)

/-- Consistency of the parser's object graph as the reader builds it
(reader.py:723-747 only files a dialog under the messages' own truthy
`call_id`, and `SipDialog.add_sip` always appends, so `sip_list` is
non-empty): every dialog's `sip_list` holds messages whose `call_id` is the
dialog's key, and a message's `dialog` field names its own `call_id`. -/
def trav_wf (p : TravParser) : Bool :=
  p.dialogs.all (fun pr =>
    !pr.2.isEmpty && pr.2.all (fun sid =>
      match p.sips.get? sid with
      | some m => m.call_id == some pr.1
      | none => false))
  && p.sips.all (fun m =>
    match m.dialog with
    | some c => m.call_id == some c
    | none => true)

/-- Fixture for the isolation theorem: phone `"100"` seeds two groups, one
from sip 0 (call `"X"`), one from sip 1 (call `"Y"`). -/
def pC3 : TravParser :=
  { sips := [{ line_no := 10, call_id := some "X", dialog := some "X" },
             { line_no := 20, call_id := some "Y", dialog := some "Y" }],
    dialogs := [("X", [0]), ("Y", [1])],
    call_sip_map := [("X", [0]), ("Y", [1])],
    phone_sip_map := [("100", [0, 1])] }


end Astlog

/-! # Theorems -/

namespace Astlog

/-- A fold preserves any invariant preserved by each step. -/
theorem foldl_preserves {α β : Type} {R : α → Prop} {f : α → β → α}
    (h : ∀ a b, R a → R (f a b)) : ∀ (l : List β) (a : α), R a → R (List.foldl f a l) := by
  intro l
  induction l with
  | nil => intro a ha; simpa using ha
  | cons x xs ih => intro a ha; simpa using ih (f a x) (h a x ha)

/-- `add_sip` sets `was_established` exactly when `establishTrigger` fires
(and never clears it). -/
theorem add_sip_was_established (d : SipDialogSt) (m : SipMessage) :
    (SipDialog.add_sip d m).was_established
      = (d.was_established || establishTrigger d m) := by
  unfold SipDialog.add_sip establishTrigger
  split_ifs <;> simp_all

/-- Folding `add_sip` over a trace establishes the dialog exactly when the
initial state already was established or some step triggers. -/
theorem foldl_was_established (ms : List SipMessage) :
    ∀ d : SipDialogSt,
      (List.foldl SipDialog.add_sip d ms).was_established
        = (d.was_established || ackEstablishes d ms) := by
  induction ms with
  | nil => intro d; simp [ackEstablishes]
  | cons m rest ih =>
      intro d
      simp only [List.foldl_cons, ackEstablishes]
      rw [ih, add_sip_was_established, Bool.or_assoc]

/-- Claim C2, counterexample: for the INVITE-initiated trace
`INVITE, 180 Ringing, 486 Busy, ACK`, a response whose status begins with
`1` was observed and an ACK was subsequently added while `is_establishing`
was true (the claimed right-hand side holds), yet `was_established` is
false: `add_sip` consults only the most recently recorded `dialog_status`
(here `486 Busy`) at ACK time. -/
theorem c2_counterexample :
    fxInvite.request = some "INVITE" ∧
    specEstablishedC2 fxInvite [fx180, fx486, fxAck] = true ∧
    (run_dialog fxInvite [fx180, fx486, fxAck]).was_established = false := by
  decide

/-- Claim C2 (amended): for every SipDialog whose first message is an
INVITE request, after all messages have been added, `was_established` is
true if and only if some ACK request was added while `is_establishing` was
true and the `dialog_status` recorded at that moment (the most recent
response status observed while establishing) begins with `1` or `2`. -/
theorem c2_established_iff_ack_trigger (m0 : SipMessage) (rest : List SipMessage)
    (h : m0.request = some "INVITE") :
    ((run_dialog m0 rest).was_established = true ↔
      ackEstablishes (SipDialog.init m0.call_id m0) (m0 :: rest) = true) := by
  unfold run_dialog
  rw [foldl_was_established]
  simp [SipDialog.init]

/-- Witness for the amended claim C2 at the concrete trace
`INVITE, 180, 200 OK, ACK`. -/
theorem c2_established_iff_ack_trigger_witness :
    fxInvite.request = some "INVITE" ∧
    ((run_dialog fxInvite [fx180, fx200, fxAck]).was_established = true ↔
      ackEstablishes (SipDialog.init fxInvite.call_id fxInvite)
        (fxInvite :: [fx180, fx200, fxAck]) = true) :=
  ⟨by decide, c2_established_iff_ack_trigger fxInvite [fx180, fx200, fxAck] (by decide)⟩

/-- `add_sip` preserves `had_bye → was_established`: the BYE branch is
guarded by `was_established`, and `was_established` is never cleared. -/
theorem add_sip_bye_implies_established (d : SipDialogSt) (m : SipMessage)
    (h : d.had_bye = true → d.was_established = true) :
    (SipDialog.add_sip d m).had_bye = true →
      (SipDialog.add_sip d m).was_established = true := by
  unfold SipDialog.add_sip
  split_ifs <;> simp_all

/-- Claim C6: for every SipDialog, `had_bye` implies `was_established`.
Every reachable dialog state is `run_dialog m0 rest` for some prefix
`rest` of the message trace, so this covers every point during and after
parsing. -/
theorem c6_had_bye_implies_was_established (m0 : SipMessage) (rest : List SipMessage)
    (h : (run_dialog m0 rest).had_bye = true) :
    (run_dialog m0 rest).was_established = true := by
  have base : (SipDialog.init m0.call_id m0).had_bye = true →
      (SipDialog.init m0.call_id m0).was_established = true := by
    intro hb
    simp [SipDialog.init] at hb
  have inv := foldl_preserves
    (R := fun d : SipDialogSt => d.had_bye = true → d.was_established = true)
    (fun a b ha => add_sip_bye_implies_established a b ha)
    (m0 :: rest) (SipDialog.init m0.call_id m0) base
  exact inv h

/-- Witness for claim C6 at the concrete trace `INVITE, 200 OK, ACK, BYE`. -/
theorem c6_had_bye_implies_was_established_witness :
    (run_dialog fxInvite [fx200, fxAck, fxBye]).had_bye = true ∧
    (run_dialog fxInvite [fx200, fxAck, fxBye]).was_established = true :=
  ⟨by decide, c6_had_bye_implies_was_established fxInvite [fx200, fxAck, fxBye] (by decide)⟩

/-- Claim C4, counterexample: after a header line phase ends with a blank
line the assembler is in state 1 (PRE-BODY); offering another blank line
there returns `False` — the line is REJECTED (which makes the driver
finalize the message), not accepted as the claim states. -/
theorem c4_counterexample :
    SipMessage.add_line fxFresh "" = some (true, { fxFresh with whr := 1 }) ∧
    SipMessage.add_line { fxFresh with whr := 1 } "" =
      some (false, { fxFresh with whr := 1 }) := by
  decide

/-- Claim C4 (amended): offering a blank line while the assembler is in the
PRE-BODY state (state 1) is REJECTED: `add_line` returns false and leaves
the message unchanged, so the blank line ends the message. -/
theorem c4_blank_prebody_rejected (m : SipMessage) (h : m.whr = 1) :
    SipMessage.add_line m "" = some (false, m) := by
  have h1 : pyStartsWith "" "<--" = false := by decide
  have h2 : pyStartsWith "" "---" = false := by decide
  unfold SipMessage.add_line
  rw [h1, h2]
  simp [h]

/-- Witness for the amended claim C4. -/
theorem c4_blank_prebody_rejected_witness :
    ({ fxFresh with whr := 1 } : SipMessage).whr = 1 ∧
    SipMessage.add_line { fxFresh with whr := 1 } "" =
      some (false, { fxFresh with whr := 1 }) :=
  ⟨rfl, c4_blank_prebody_rejected { fxFresh with whr := 1 } rfl⟩

/-- Claim C5: after `finish`, a Dial's status is among
ANSWERED / NO ANSWER / BUSY / EXIT / PICKUP, and equals the value of the
spec's finish rule (RINGING becomes NO ANSWER; else a recorded busy event
gives BUSY; else anything outside ANSWERED/NO ANSWER/PICKUP becomes EXIT;
else unchanged). -/
theorem c5_finish_status (d : LogDialSt) :
    (LogDial.finish d).status ∈ ["ANSWERED", "NO ANSWER", "BUSY", "EXIT", "PICKUP"] ∧
    (LogDial.finish d).status = specFinishStatusC5 d.status d.was_busy := by
  unfold LogDial.finish specFinishStatusC5
  split_ifs with h1 h2 h3 <;> simp_all <;> tauto

/-- Claim C8: combining a truthy `tail_minutes` with a truthy `from_when`
or `to_when` makes `app.main` raise before the parser runs (the
InvalidArgument condition of the specification). -/
theorem c8_tail_minutes_exclusive (fw tw : Option String) (n : Int) (hn : n ≠ 0)
    (h : pyTruthy fw = true ∨ pyTruthy tw = true) :
    main_tail_check fw tw (some n) =
      Except.error "--tail-minutes cannot be used with --from-when/--to-when" := by
  have h1 : (pyTruthy fw || pyTruthy tw) = true := by
    rcases h with h | h <;> simp [h]
  have h2 : pyTruthyInt (some n) = true := by
    simp [pyTruthyInt, hn]
  unfold main_tail_check
  simp [h1, h2]

/-- Witness for claim C8. -/
theorem c8_tail_minutes_exclusive_witness :
    main_tail_check (some "2024-01-01 10:00:00") none (some 5) =
      Except.error "--tail-minutes cannot be used with --from-when/--to-when" :=
  c8_tail_minutes_exclusive (some "2024-01-01 10:00:00") none 5 (by decide)
    (Or.inl (by decide))

/-- Claim C9, failing input: for the buffer `"\nx\r"` at position 0, the
next line is the empty line terminated by the LF at offset 0 (not ending
in CRLF), so the tokenizer should return `("", 1)`; the source instead
checks `data[eol - 1]` which for `eol = 0` wraps around to the LAST byte
of the buffer (`'\r'`), and the slice `data[0:-1]` returns `"\nx"`. -/
theorem c9_crlf_wraparound :
    get_line "\nx\r" 0 3 = ("\nx", 1) ∧ get_line "\nx\r" 0 3 ≠ ("", 1) := by
  decide

/-- Storing under a key makes it retrievable. -/
theorem alLookup_alInsert_self {κ β : Type} [DecidableEq κ] (l : List (κ × β)) (k : κ) (v : β) :
    alLookup (alInsert l k v) k = some v := by
  induction l with
  | nil => simp [alInsert, alLookup]
  | cons hd tl ih =>
      obtain ⟨k', v'⟩ := hd
      by_cases hk : k' = k <;> simp [alInsert, alLookup, hk, ih]

/-- Storing under a different key leaves a lookup unchanged. -/
theorem alLookup_alInsert_ne {κ β : Type} [DecidableEq κ] (l : List (κ × β)) (k k' : κ) (v : β)
    (h : k' ≠ k) : alLookup (alInsert l k' v) k = alLookup l k := by
  induction l with
  | nil => simp [alInsert, alLookup, h]
  | cons hd tl ih =>
      obtain ⟨k0, v0⟩ := hd
      by_cases hk : k0 = k'
      · subst hk
        simp [alInsert, alLookup, h]
      · by_cases hk2 : k0 = k
        · subst hk2
          simp [alInsert, alLookup, hk]
        · simp [alInsert, alLookup, hk, hk2, ih]

/-- The value just appended is a member of its key's list. -/
theorem mem_alAppend_self {κ β : Type} [DecidableEq κ] (l : List (κ × List β)) (k : κ) (v : β) :
    v ∈ (alLookup (alAppend l k v) k).getD [] := by
  rw [alAppend, alLookup_alInsert_self]
  simp

/-- Appending under any key preserves membership under any key. -/
theorem mem_alAppend_mono {κ β : Type} [DecidableEq κ] (l : List (κ × List β)) (k k2 : κ)
    (w v : β) (h : v ∈ (alLookup l k).getD []) :
    v ∈ (alLookup (alAppend l k2 w) k).getD [] := by
  by_cases hk : k2 = k
  · subst hk
    rw [alAppend, alLookup_alInsert_self]
    simp only [Option.getD_some]
    exact List.mem_append_left _ h
  · rw [alAppend, alLookup_alInsert_ne _ _ _ _ hk]
    exact h

/-- Membership is preserved by a conditional append. -/
theorem mem_condAppend {κ β : Type} [DecidableEq κ] (mp : List (κ × List β)) (c : Prop)
    [Decidable c] (k2 : κ) (w v : β) (k : κ)
    (h : v ∈ (alLookup mp k).getD []) :
    v ∈ (alLookup (if c then alAppend mp k2 w else mp) k).getD [] := by
  split_ifs
  · exact mem_alAppend_mono mp k k2 w v h
  · exact h

/-- Claim C10: a message finalized without a Call-ID creates or modifies no
dialog, is indexed in no per-call-id map, keeps its dialog reference
absent, and is still indexed in the phone-to-sip map under each of its
truthy From/To names and numbers. -/
theorem c10_no_call_id_indexing (p : LogParserSt) (sip : SipMessage)
    (h : sip.call_id = none) :
    (LogParser.finish_sip p sip).1.dialogs = p.dialogs ∧
    (LogParser.finish_sip p sip).1.call_sip_map = p.call_sip_map ∧
    (LogParser.finish_sip p sip).2 = sip ∧
    (∀ s, sip.from_name = some s → s ≠ "" →
      sip ∈ (alLookup (LogParser.finish_sip p sip).1.phone_sip_map s).getD []) ∧
    (∀ s, sip.from_num = some s → s ≠ "" →
      sip ∈ (alLookup (LogParser.finish_sip p sip).1.phone_sip_map s).getD []) ∧
    (∀ s, sip.to_name = some s → s ≠ "" →
      sip ∈ (alLookup (LogParser.finish_sip p sip).1.phone_sip_map s).getD []) ∧
    (∀ s, sip.to_num = some s → s ≠ "" →
      sip ∈ (alLookup (LogParser.finish_sip p sip).1.phone_sip_map s).getD []) := by
  have hT : pyTruthy sip.call_id = false := by rw [h]; rfl
  unfold LogParser.finish_sip
  simp only [hT, Bool.false_eq_true, if_false]
  refine ⟨?_, ?_, ?_, ?_, ?_, ?_, ?_⟩
  · cases sip.acall <;> simp [apply_ite LogParserSt.dialogs]
  · cases sip.acall <;> simp [apply_ite LogParserSt.call_sip_map]
  · cases sip.acall <;> simp
  · intro s hs hs'
    have ht : pyTruthy (some s) = true := by simp [pyTruthy, hs']
    cases hac : sip.acall <;>
      · simp [hac, hs, ht, apply_ite LogParserSt.phone_sip_map]
        exact mem_condAppend _ _ _ _ _ _ (mem_condAppend _ _ _ _ _ _
          (mem_condAppend _ _ _ _ _ _ (mem_alAppend_self _ _ _)))
  · intro s hs hs'
    have ht : pyTruthy (some s) = true := by simp [pyTruthy, hs']
    cases hac : sip.acall <;>
      · simp [hac, hs, ht, apply_ite LogParserSt.phone_sip_map]
        exact mem_condAppend _ _ _ _ _ _ (mem_condAppend _ _ _ _ _ _
          (mem_alAppend_self _ _ _))
  · intro s hs hs'
    have ht : pyTruthy (some s) = true := by simp [pyTruthy, hs']
    cases hac : sip.acall <;>
      · simp [hac, hs, ht, apply_ite LogParserSt.phone_sip_map]
        exact mem_condAppend _ _ _ _ _ _ (mem_alAppend_self _ _ _)
  · intro s hs hs'
    have ht : pyTruthy (some s) = true := by simp [pyTruthy, hs']
    cases hac : sip.acall <;>
      · simp [hac, hs, ht, apply_ite LogParserSt.phone_sip_map]
        exact mem_alAppend_self _ _ _

/-- Witness for claim C10. -/
theorem c10_no_call_id_indexing_witness :
    fxNoCallId.call_id = none ∧
    (LogParser.finish_sip {} fxNoCallId).1.dialogs = ({} : LogParserSt).dialogs ∧
    fxNoCallId ∈
      (alLookup (LogParser.finish_sip {} fxNoCallId).1.phone_sip_map "Alice").getD [] := by
  have h := c10_no_call_id_indexing {} fxNoCallId rfl
  exact ⟨rfl, h.1, h.2.2.2.1 "Alice" rfl (by decide)⟩

/-- Claim C1: sender/recipient resolution of `finalize_sip` follows the
specification's table.  `dialog_sips` is the owning dialog's `sip_list` at
finalize time.  The hypothesis `hto` reflects that `parse_from_to` never
produces an empty (falsy) `to_addr`. -/
theorem c1_sender_recipient_table (m : SipMessage) (ds : List SipMessage)
    (hto : m.to_addr ≠ some "") :
    (∀ r, m.request = some r → r ≠ "" → m.direction = "IN" →
      (m.finalize_sip ds).sender_addr = m.via_addr ∧
      (m.finalize_sip ds).recipient_addr =
        (if m.to_addr = none then m.request_addr else m.to_addr)) ∧
    (∀ r, m.request = some r → r ≠ "" → m.direction = "OUT" →
      (m.finalize_sip ds).sender_addr = m.via_addr ∧
      (m.finalize_sip ds).recipient_addr = m.request_addr) ∧
    (m.request = none → m.direction = "IN" →
      (m.finalize_sip ds).recipient_addr = m.via_addr ∧
      (∀ i s, m.dialog.isSome → find_request_sip ds m.cseq = some i →
        ds.get? i = some s →
        (m.finalize_sip ds).sender_addr = s.recipient_addr)) ∧
    (m.request = none → m.direction = "OUT" →
      (m.finalize_sip ds).sender_addr = m.to_addr ∧
      (m.finalize_sip ds).recipient_addr = m.via_addr) := by
  refine ⟨?_, ?_, ?_, ?_⟩
  · intro r hr hr' hd
    have ht : pyTruthy m.request = true := by simp [pyTruthy, hr, hr']
    constructor
    · simp [SipMessage.finalize_sip, ht, hd]
    · simp [SipMessage.finalize_sip, ht, hd]
      cases hto' : m.to_addr with
      | none => simp [pyOr, pyTruthy]
      | some t =>
          have htne : t ≠ "" := fun he => hto (by rw [hto', he])
          simp [pyOr, pyTruthy, htne]
  · intro r hr hr' hd
    have ht : pyTruthy m.request = true := by simp [pyTruthy, hr, hr']
    constructor <;> simp [SipMessage.finalize_sip, ht, hd]
  · intro hr hd
    have ht : pyTruthy m.request = false := by simp [pyTruthy, hr]
    constructor
    · unfold SipMessage.finalize_sip
      cases hdlg : m.dialog
      · simp only [ht, hd, hr, Option.isSome_none, Bool.not_false, Bool.true_and,
          Bool.false_eq_true, if_false, pyTruthy, bne_self_eq_false, if_true,
          if_pos rfl]
        cases hrs : m.request_sip
        · simp
        · rename_i j
          cases hget : ds[j]? <;> simp [hget]
      · cases hfind : find_request_sip ds m.cseq
        · simp only [ht, hd, hr, hfind, Option.isSome_some, Bool.not_false,
            Bool.true_and, if_true, pyTruthy, bne_self_eq_false,
            Bool.false_eq_true, if_false, if_pos rfl]
          cases hrs : m.request_sip
          · simp
          · rename_i j
            cases hget : ds[j]? <;> simp [hget]
        · rename_i i
          cases hget : ds[i]? <;>
            simp [ht, hd, hr, hfind, hget, pyTruthy]
    · intro i s hiso hfind hget
      have hget' : ds[i]? = some s := by simpa using hget
      unfold SipMessage.finalize_sip
      cases hdlg : m.dialog
      · rw [hdlg] at hiso; simp at hiso
      · simp [ht, hd, hr, hfind, hget', pyTruthy]
  · intro hr hd
    have ht : pyTruthy m.request = false := by simp [pyTruthy, hr]
    unfold SipMessage.finalize_sip
    cases hdlg : m.dialog
    · simp [ht, hd, hr, pyTruthy]
    · cases hfind : find_request_sip ds m.cseq <;>
        simp [ht, hd, hr, hfind, pyTruthy]

/-- Witness for claim C1 (incoming request case). -/
theorem c1_sender_recipient_table_witness :
    (fxReqIn.finalize_sip []).sender_addr = fxReqIn.via_addr ∧
    (fxReqIn.finalize_sip []).recipient_addr =
      (if fxReqIn.to_addr = none then fxReqIn.request_addr else fxReqIn.to_addr) :=
  (c1_sender_recipient_table fxReqIn [] (by decide)).1 "INVITE" rfl (by decide) rfl

/-- Characterization of `subFindAux` for a single-character needle. -/
theorem subFindAux_char (c : Char) :
    ∀ (l : List Char) (i j : Nat),
      subFindAux [c] l i = some j ↔
        ∃ m, j = i + m ∧ l.get? m = some c ∧ ∀ k, k < m → l.get? k ≠ some c := by
  intro l
  induction l with
  | nil =>
      intro i j
      simp [subFindAux]
  | cons x tl ih =>
      intro i j
      by_cases hx : x = c
      · subst hx
        constructor
        · intro h
          have hj : j = i := by
            have heq : subFindAux [x] (x :: tl) i = some i := by simp [subFindAux]
            rw [heq] at h
            exact (Option.some_inj.mp h).symm
          subst hj
          exact ⟨0, by omega, by simp, fun k hk => absurd hk (Nat.not_lt_zero k)⟩
        · rintro ⟨m, rfl, hg, hmin⟩
          have hm : m = 0 := by
            by_contra hm
            exact hmin 0 (Nat.pos_of_ne_zero hm) (by simp)
          subst hm
          simp [subFindAux]
      · constructor
        · intro h
          have h' : subFindAux [c] tl (i + 1) = some j := by
            simpa [subFindAux, hx] using h
          obtain ⟨m, hm, hg, hmin⟩ := (ih (i + 1) j).mp h'
          refine ⟨m + 1, by omega, by simpa using hg, ?_⟩
          intro k hk
          cases k with
          | zero => simp [hx]
          | succ k' =>
              intro hh
              exact hmin k' (by omega) (by simpa using hh)
        · rintro ⟨m, rfl, hg, hmin⟩
          cases m with
          | zero =>
              simp at hg
              exact absurd hg hx
          | succ m' =>
              have h' := (ih (i + 1) (i + (m' + 1))).mpr
                ⟨m', by omega, by simpa using hg, fun k hk => by
                  have := hmin (k + 1) (by omega)
                  simpa using this⟩
              simpa [subFindAux, hx] using h'

/-- Characterization of `strFind` (no end bound) for a one-character
needle: the first occurrence at or after `start`. -/
theorem strFind_char_iff (hay needle : String) (c : Char) (hn : needle.data = [c])
    (start j : Nat) :
    strFind hay needle start none = some j ↔
      ∃ m, j = start + m ∧ hay.data.get? (start + m) = some c ∧
        ∀ k, k < m → hay.data.get? (start + k) ≠ some c := by
  unfold strFind
  simp only [Option.getD_none, Nat.min_self, List.take_length]
  rw [hn]
  constructor
  · intro h
    obtain ⟨j0, hj0, hj0'⟩ := Option.map_eq_some'.mp h
    obtain ⟨m, hm, hg, hmin⟩ := (subFindAux_char c _ 0 j0).mp hj0
    refine ⟨m, by omega, ?_, ?_⟩
    · rw [← List.get?_drop]
      exact hg
    · intro k hk
      rw [← List.get?_drop]
      exact hmin k hk
  · rintro ⟨m, rfl, hg, hmin⟩
    apply Option.map_eq_some'.mpr
    refine ⟨m, ?_, by omega⟩
    apply (subFindAux_char c _ 0 m).mpr
    refine ⟨m, by omega, ?_, ?_⟩
    · rw [List.get?_drop]
      exact hg
    · intro k hk
      rw [List.get?_drop]
      exact hmin k hk

/-- `get?` through `take`, unconditional form. -/
theorem get?_take' (l : List Char) (b i : Nat) :
    (l.take b).get? i = if i < b then l.get? i else none := by
  by_cases h : i < b
  · rw [List.get?_take h, if_pos h]
  · rw [if_neg h]
    apply List.get?_eq_none.mpr
    simp only [List.length_take]
    omega

/-- `get?` into a slice. -/
theorem get?_slice (s : String) (a b i : Nat) :
    (pySliceNat s a b).data.get? i = if a + i < b then s.data.get? (a + i) else none := by
  show ((s.data.take b).drop a).get? i = _
  rw [List.get?_drop, get?_take']

/-- `pyIndexInt` at a non-negative index. -/
theorem pyIndexInt_ofNat (s : String) (n : Nat) :
    pyIndexInt s (n : Int) = s.data.get? n := by
  unfold pyIndexInt
  rw [if_neg (by omega)]
  simp

/-- `pySliceToInt` at a non-negative stop bound. -/
theorem pySliceToInt_ofNat (s : String) (a n : Nat) :
    pySliceToInt s a (n : Int) = if n ≤ a then "" else pySliceNat s a n := by
  have h0 : ¬((n : Int) < 0) := by omega
  simp only [pySliceToInt]
  rw [if_neg h0]
  by_cases h : n ≤ a
  · rw [if_pos (by exact_mod_cast h), if_pos h]
  · rw [if_neg (by exact_mod_cast h), if_neg h]
    simp

/-- A slice of the 64000-byte probe window is the corresponding slice of
the underlying buffer. -/
theorem pySliceNat_window (data : String) (fp p q : Nat) (hq : q ≤ 64000) :
    pySliceNat (pySliceNat data fp (fp + 64000)) p q = pySliceNat data (fp + p) (fp + q) := by
  have hdata : (pySliceNat (pySliceNat data fp (fp + 64000)) p q).data
      = (pySliceNat data (fp + p) (fp + q)).data := by
    apply List.ext
    intro n
    by_cases h1 : p + n < q
    · rw [get?_slice, if_pos h1, get?_slice, get?_slice, if_pos (by omega),
        if_pos (by omega)]
      congr 1
      omega
    · rw [get?_slice, if_neg h1, get?_slice, if_neg (by omega)]
  exact congrArg String.mk hdata

/-- A newline found in the probe window is the first newline at the
corresponding offset of the underlying buffer. -/
theorem strFind_newline_window (data : String) (fp p e : Nat)
    (h : strFind (pySliceNat data fp (fp + 64000)) "\n" p none = some e) :
    p ≤ e ∧ e < 64000 ∧ strFind data "\n" (fp + p) none = some (fp + e) := by
  obtain ⟨m, rfl, hg, hmin⟩ := (strFind_char_iff _ "\n" '\n' rfl p e).mp h
  rw [get?_slice] at hg
  by_cases hb : fp + (p + m) < fp + 64000
  · rw [if_pos hb] at hg
    refine ⟨by omega, by omega, ?_⟩
    apply (strFind_char_iff data "\n" '\n' rfl (fp + p) (fp + (p + m))).mpr
    refine ⟨m, by omega, ?_, ?_⟩
    · rw [show (fp + p) + m = fp + (p + m) by omega]
      exact hg
    · intro k hk
      have h2 := hmin k hk
      rw [get?_slice, if_pos (by omega)] at h2
      rw [show (fp + p) + k = fp + (p + k) by omega]
      exact h2
  · rw [if_neg hb] at hg
    exact absurd hg (by simp)

/-- `read_when`'s scan loop only returns the extraction of
`timestamp_line_at` at the returned offset. -/
theorem read_when_loop_spec (data w : String) (q : Nat) :
    ∀ (fuel pos : Nat),
      read_when_loop data data.data.length fuel pos = some (w, q) →
      timestamp_line_at data q = some w := by
  intro fuel
  induction fuel with
  | zero =>
      intro pos h
      simp [read_when_loop] at h
  | succ f ih =>
      intro pos h
      rw [read_when_loop] at h
      split_ifs at h with hlt
      · by_cases hguard : ((get_line data pos data.data.length).1 != ""
            && (pyCharAt (get_line data pos data.data.length).1 0 == some '[')) = true
        · cases hfind : strFind (get_line data pos data.data.length).1 "]" 0 none with
          | none =>
              simp only [hguard, if_true, hfind] at h
              exact ih _ h
          | some idx =>
              by_cases hidx : 0 < idx
              · simp only [hguard, if_true, hfind, hidx] at h
                have h2 := Option.some_inj.mp h
                have hw : pySliceNat (get_line data pos data.data.length).1 1 idx = w :=
                  congrArg Prod.fst h2
                have hq : pos = q := congrArg Prod.snd h2
                subst hq
                simp only [timestamp_line_at]
                rw [hguard, if_pos rfl, hfind]
                show (if 0 < idx then
                    some (pySliceNat (get_line data pos data.data.length).1 1 idx)
                  else none) = some w
                rw [if_pos hidx, hw]
              · simp only [hguard, if_true, hfind, hidx] at h
                exact ih _ h
        · have hg' : ((get_line data pos data.data.length).1 != ""
              && (pyCharAt (get_line data pos data.data.length).1 0 == some '[')) = false := by
            revert hguard
            cases ((get_line data pos data.data.length).1 != ""
              && (pyCharAt (get_line data pos data.data.length).1 0 == some '[')) <;> simp
          simp only [hg', Bool.false_eq_true, if_false] at h
          exact ih _ h

/-- `read_when` returns the first timestamp tag of the buffer, together
with the offset at which `timestamp_line_at` extracts exactly it. -/
theorem read_when_spec (data w : String) (q : Nat)
    (h : read_when data = some (w, q)) : timestamp_line_at data q = some w := by
  unfold read_when at h
  split_ifs at h
  exact read_when_loop_spec data w q _ 0 h

/-- A non-empty slice starting at `p` has the buffer's byte at `p` as its
first character. -/
theorem pyCharAt_slice_zero (s : String) (p X : Nat) (hne : pySliceNat s p X ≠ "") :
    pyCharAt (pySliceNat s p X) 0 = s.data.get? p := by
  have hlen : 0 < (pySliceNat s p X).data.length := by
    by_contra hl
    apply hne
    have hnil : (pySliceNat s p X).data = [] :=
      List.eq_nil_of_length_eq_zero (by omega)
    exact congrArg String.mk hnil
  have hpX : p < X := by
    have h2 := hlen
    simp only [pySliceNat, List.length_drop, List.length_take] at h2
    omega
  show (pySliceNat s p X).data.get? 0 = _
  rw [get?_slice, if_pos (by omega), Nat.add_zero]

/-- `pySliceToInt` is either empty or an ordinary slice from the same
start. -/
theorem pySliceToInt_cases (s : String) (a : Nat) (b : Int) :
    pySliceToInt s a b = "" ∨ ∃ X, pySliceToInt s a b = pySliceNat s a X := by
  simp only [pySliceToInt]
  split_ifs <;> first | (left; rfl) | (right; exact ⟨_, rfl⟩)

/-- A successful `timestamp_line_at` means the buffer holds `[` at the
offset itself. -/
theorem timestamp_first_char (s : String) (g : Nat) (w : String)
    (h : timestamp_line_at s g = some w) :
    ∃ e, strFind s "\n" g none = some e ∧ s.data.get? g = some '[' := by
  unfold timestamp_line_at at h
  cases hf : strFind s "\n" g none with
  | none => simp [get_line, hf] at h
  | some e =>
      refine ⟨e, rfl, ?_⟩
      simp only [get_line, hf, apply_ite Prod.fst] at h
      by_cases hcr : pyIndexInt s ((e : Int) - 1) = some '\r'
      · rw [if_pos hcr] at h
        rcases pySliceToInt_cases s g ((e : Int) - 1) with hc | ⟨X, hc⟩
        · rw [hc] at h; simp at h
        · rw [hc] at h
          by_cases hne : pySliceNat s g X = ""
          · rw [hne] at h; simp at h
          · by_cases hbr : pyCharAt (pySliceNat s g X) 0 == some '['
            · rw [← pyCharAt_slice_zero s g X hne]
              exact eq_of_beq hbr
            · have hb : (pyCharAt (pySliceNat s g X) 0 == some '[') = false := by
                revert hbr; cases (pyCharAt (pySliceNat s g X) 0 == some '[') <;> simp
              rw [hb] at h; simp at h
      · rw [if_neg hcr] at h
        by_cases hne : pySliceNat s g e = ""
        · rw [hne] at h; simp at h
        · by_cases hbr : pyCharAt (pySliceNat s g e) 0 == some '['
          · rw [← pyCharAt_slice_zero s g e hne]
            exact eq_of_beq hbr
          · have hb : (pyCharAt (pySliceNat s g e) 0 == some '[') = false := by
              revert hbr; cases (pyCharAt (pySliceNat s g e) 0 == some '[') <;> simp
            rw [hb] at h; simp at h

/-- The first line read from window offset `p` equals the first line read
from buffer offset `fp + p`, given the matching newline facts. -/
theorem get_line_fst_window (data : String) (fp p e : Nat)
    (hf : strFind (pySliceNat data fp (fp + 64000)) "\n" p none = some e)
    (hdf : strFind data "\n" (fp + p) none = some (fp + e))
    (he1 : 1 ≤ e) (he64 : e < 64000) :
    (get_line data (fp + p) data.data.length).1
      = (get_line (pySliceNat data fp (fp + 64000)) p
          (pySliceNat data fp (fp + 64000)).data.length).1 := by
  have hcr_eq : pyIndexInt data ((↑(fp + e) : Int) - 1)
      = pyIndexInt (pySliceNat data fp (fp + 64000)) ((↑e : Int) - 1) := by
    rw [show ((↑(fp + e) : Int) - 1) = ((fp + (e - 1) : Nat) : Int) by omega,
        show ((↑e : Int) - 1) = ((e - 1 : Nat) : Int) by omega,
        pyIndexInt_ofNat, pyIndexInt_ofNat, get?_slice, if_pos (by omega)]
  simp only [get_line, hf, hdf, apply_ite Prod.fst]
  rw [hcr_eq]
  split_ifs with hcr
  · rw [show ((↑(fp + e) : Int) - 1) = ((fp + (e - 1) : Nat) : Int) by omega,
        show ((↑e : Int) - 1) = ((e - 1 : Nat) : Int) by omega,
        pySliceToInt_ofNat, pySliceToInt_ofNat]
    by_cases hle : e - 1 ≤ p
    · rw [if_pos hle, if_pos (by omega)]
    · rw [if_neg hle, if_neg (by omega),
        pySliceNat_window data fp p (e - 1) (by omega)]
  · rw [show fp + e = fp + e from rfl, pySliceNat_window data fp p e (by omega)]

/-- The timestamp tag seen at window offset `p` of a probe window is the
timestamp tag of the underlying buffer at offset `fp + p`. -/
theorem timestamp_line_at_window (data : String) (fp p : Nat) (w : String)
    (h : timestamp_line_at (pySliceNat data fp (fp + 64000)) p = some w) :
    timestamp_line_at data (fp + p) = some w := by
  obtain ⟨e, hf, hbr⟩ := timestamp_first_char (pySliceNat data fp (fp + 64000)) p w h
  obtain ⟨hpe, he64, hdf⟩ := strFind_newline_window data fp p e hf
  obtain ⟨m, hem, hg, hmin⟩ :=
    (strFind_char_iff (pySliceNat data fp (fp + 64000)) "\n" '\n' rfl p e).mp hf
  have hm1 : 1 ≤ m := by
    by_contra hm
    have hm0 : m = 0 := by omega
    subst hm0
    have hg' : (pySliceNat data fp (fp + 64000)).data.get? p = some '\n' := by
      simpa using hg
    exact absurd (Option.some_inj.mp (hbr.symm.trans hg')) (by decide)
  have he1 : 1 ≤ e := by omega
  have hEq := get_line_fst_window data fp p e hf hdf he1 he64
  simp only [timestamp_line_at] at h ⊢
  rw [hEq]
  exact h

/-- The bisection loop only ever returns offsets with the `GoodAt`
property, provided the incoming candidate has it. -/
theorem ffp_loop_good (data direction : String) (ts : DateTime) :
    ∀ (fuel fp a b : Nat) (good : Option Nat),
      (∀ g0, good = some g0 → GoodAt data direction ts g0) →
      ∀ g, ffp_loop data direction ts fuel fp a b good = some g →
        GoodAt data direction ts g := by
  intro fuel
  induction fuel with
  | zero =>
      intro fp a b good hg g h
      exact hg g (by simpa [ffp_loop] using h)
  | succ f ih =>
      intro fp a b good hg g h
      simp only [ffp_loop] at h
      by_cases hnew : a + (b - a) / 2 = fp
      · rw [if_pos hnew] at h
        exact hg g h
      · rw [if_neg hnew] at h
        revert h
        cases hrw : read_when (pySliceNat data (a + (b - a) / 2) (a + (b - a) / 2 + 64000)) with
        | none =>
            intro h
            simp only [] at h
            exact hg g h
        | some pr =>
            obtain ⟨w, pos⟩ := pr
            intro h
            simp only [] at h
            by_cases hw : w = ""
            · rw [if_pos hw] at h
              exact hg g h
            · rw [if_neg hw] at h
              revert h
              cases hpw : parse_when w with
              | none =>
                  intro h
                  simp only [] at h
                  exact hg g h
              | some t =>
                  intro h
                  simp only [] at h
                  have hline : timestamp_line_at data ((a + (b - a) / 2) + pos) = some w := by
                    apply timestamp_line_at_window
                    exact read_when_spec _ w pos hrw
                  by_cases hdir : direction = "after"
                  · rw [if_pos hdir] at h
                    by_cases hle : DateTime.le ts t = true
                    · rw [if_pos hle] at h
                      by_cases hba : a + (b - a) / 2 = a
                      · rw [if_pos hba] at h
                        exact (Option.some_inj.mp h) ▸
                          ⟨w, t, hline, hpw, fun _ => hle, fun hc => absurd hdir hc⟩
                      · rw [if_neg hba] at h
                        refine ih _ _ _ _ ?_ g h
                        intro g0 hg0
                        exact (Option.some_inj.mp hg0) ▸
                          ⟨w, t, hline, hpw, fun _ => hle, fun hc => absurd hdir hc⟩
                    · rw [if_neg hle] at h
                      by_cases hba : b = a + (b - a) / 2
                      · rw [if_pos hba] at h
                        exact hg g h
                      · rw [if_neg hba] at h
                        exact ih _ _ _ _ hg g h
                  · rw [if_neg hdir] at h
                    by_cases hle : DateTime.le t ts = true
                    · rw [if_pos hle] at h
                      by_cases hba : b = a + (b - a) / 2
                      · rw [if_pos hba] at h
                        exact (Option.some_inj.mp h) ▸
                          ⟨w, t, hline, hpw, fun hc => absurd hc hdir, fun _ => hle⟩
                      · rw [if_neg hba] at h
                        refine ih _ _ _ _ ?_ g h
                        intro g0 hg0
                        exact (Option.some_inj.mp hg0) ▸
                          ⟨w, t, hline, hpw, fun hc => absurd hc hdir, fun _ => hle⟩
                    · rw [if_neg hle] at h
                      by_cases hba : a + (b - a) / 2 = a
                      · rw [if_pos hba] at h
                        exact hg g h
                      · rw [if_neg hba] at h
                        exact ih _ _ _ _ hg g h

/-- Claim C7 (amended): whenever the binary search returns an offset, that
offset points to the start of a timestamped line tag `[w]` whose timestamp
is `≥ from_when` in `after` mode and `≤ to_when` otherwise.  The
extremality half of the original claim (no earlier/later qualifying line)
does not hold, and no offset is guaranteed to be returned. -/
theorem c7_returned_offset_is_timestamped (data when direction : String) (g : Nat)
    (h : find_file_position data when direction = some g) :
    ∃ ts w t, parse_when when = some ts ∧ timestamp_line_at data g = some w ∧
      parse_when w = some t ∧
      (direction = "after" → DateTime.le ts t = true) ∧
      (direction ≠ "after" → DateTime.le t ts = true) := by
  unfold find_file_position at h
  cases hpw : parse_when when with
  | none => rw [hpw] at h; exact absurd h (by simp)
  | some ts =>
      rw [hpw] at h
      obtain ⟨w, t, h1, h2, h3, h4⟩ :=
        ffp_loop_good data direction ts 40 0 0 data.data.length none (by simp) g h
      exact ⟨ts, w, t, rfl, h1, h2, h3, h4⟩

/-- Witness for the amended claim C7: on a buffer with increasing
timestamps the search in `after` mode returns offset 24, whose line is
timestamped `2024-01-01 10:00:05` ≥ the requested `10:00:03`. -/
theorem c7_returned_offset_is_timestamped_witness :
    find_file_position fxLogSorted "2024-01-01 10:00:03" "after" = some 24 ∧
    (∃ ts w t, parse_when "2024-01-01 10:00:03" = some ts ∧
      timestamp_line_at fxLogSorted 24 = some w ∧ parse_when w = some t ∧
      ("after" = "after" → DateTime.le ts t = true) ∧
      (("after" : String) ≠ "after" → DateTime.le t ts = true)) :=
  ⟨by decide,
   c7_returned_offset_is_timestamped fxLogSorted "2024-01-01 10:00:03" "after" 24
     (by decide)⟩

/-- Claim C7, counterexample to the extremality half, in both modes.
In `after` mode on `fxLogUnsorted` the search returns offset 48
(timestamp `10:00:03`), yet the earlier offset 0 also holds a timestamped
line with timestamp `10:00:05 ≥ 10:00:02`.  In `before` mode on
`fxLogUnsorted2` the search returns offset 24 (timestamp `10:00:01`), yet
the later offset 72 also holds a timestamped line with timestamp
`10:00:03 ≤ 10:00:04`. -/
theorem c7_counterexample :
    (find_file_position fxLogUnsorted "2024-01-01 10:00:02" "after" = some 48 ∧
      timestamp_line_at fxLogUnsorted 0 = some "2024-01-01 10:00:05" ∧
      (∃ ts t0, parse_when "2024-01-01 10:00:02" = some ts ∧
        parse_when "2024-01-01 10:00:05" = some t0 ∧ DateTime.le ts t0 = true) ∧
      (0 : Nat) < 48) ∧
    (find_file_position fxLogUnsorted2 "2024-01-01 10:00:04" "before" = some 24 ∧
      timestamp_line_at fxLogUnsorted2 72 = some "2024-01-01 10:00:03" ∧
      (∃ ts t1, parse_when "2024-01-01 10:00:04" = some ts ∧
        parse_when "2024-01-01 10:00:03" = some t1 ∧ DateTime.le t1 ts = true) ∧
      (24 : Nat) < 72) := by
  constructor
  · exact ⟨by decide, by decide,
      ⟨⟨2024, 1, 1, 10, 0, 2, 0⟩, ⟨2024, 1, 1, 10, 0, 5, 0⟩, by decide, by decide, by decide⟩,
      by decide⟩
  · exact ⟨by decide, by decide,
      ⟨⟨2024, 1, 1, 10, 0, 4, 0⟩, ⟨2024, 1, 1, 10, 0, 3, 0⟩, by decide, by decide, by decide⟩,
      by decide⟩

/-! ## C3: isolation returns exactly the matching groups -/

/-- A successful assoc lookup is a member. -/
theorem alLookup_mem {κ β : Type} [DecidableEq κ] (l : List (κ × β)) (k : κ) (v : β)
    (h : alLookup l k = some v) : (k, v) ∈ l := by
  induction l with
  | nil => simp [alLookup] at h
  | cons hd tl ih =>
      obtain ⟨k', v'⟩ := hd
      rw [alLookup] at h
      by_cases hk : k' = k
      · rw [if_pos hk] at h
        subst hk
        cases Option.some_inj.mp h
        exact List.mem_cons_self _ _
      · rw [if_neg hk] at h
        exact List.mem_cons_of_mem _ (ih h)

/-- `insertSorted` permutes the cons. -/
theorem insertSorted_perm {α : Type} (le : α → α → Bool) (x : α) (l : List α) :
    List.Perm (insertSorted le x l) (x :: l) := by
  induction l with
  | nil => simp [insertSorted]
  | cons y tl ih =>
      rw [insertSorted]
      by_cases hle : le y x = true
      · rw [if_pos hle]
        exact (ih.cons y).trans (List.Perm.swap x y tl)
      · rw [if_neg hle]

/-- Insertion sort permutes its input. -/
theorem insertionSortBy_perm {α : Type} (le : α → α → Bool) (l : List α) :
    List.Perm (insertionSortBy le l) l := by
  induction l with
  | nil => simp [insertionSortBy]
  | cons x tl ih =>
      rw [insertionSortBy]
      exact (insertSorted_perm le x _).trans (ih.cons x)

/-- Sorting does not change a `countP`. -/
theorem countP_insertionSortBy {α : Type} (le : α → α → Bool) (q : α → Bool)
    (l : List α) : (insertionSortBy le l).countP q = l.countP q :=
  (insertionSortBy_perm le l).countP_eq q

/-- When at most one element satisfies `q`, the element the first-match scan
returns is the whole filter. -/
theorem filter_eq_of_find? {α : Type} (q : α → Bool) (l : List α)
    (hc : l.countP q ≤ 1) (g : α) (hf : l.find? q = some g) :
    l.filter q = [g] := by
  induction l with
  | nil => simp at hf
  | cons x tl ih =>
      cases hx : q x with
      | true =>
          rw [List.find?_cons_of_pos _ hx] at hf
          cases Option.some_inj.mp hf
          rw [List.filter_cons_of_pos hx]
          have htl : tl.countP q = 0 := by
            rw [List.countP_cons, hx] at hc
            have hone : (if (true : Bool) = true then 1 else 0) = 1 := rfl
            rw [hone] at hc
            omega
          rw [List.filter_eq_nil.mpr (List.countP_eq_zero.mp htl)]
      | false =>
          rw [List.find?_cons_of_neg _ (by simp [hx])] at hf
          rw [List.filter_cons_of_neg (by simp [hx])]
          refine ih ?_ hf
          rw [List.countP_cons, hx] at hc
          simpa using hc

/-- A count of hits is bounded by any per-element weight of at least 1. -/
theorem countP_le_sum_map {α : Type} (q : α → Bool) (f : α → Nat) (l : List α)
    (h : ∀ a, q a = true → 1 ≤ f a) :
    l.countP q ≤ (l.map f).sum := by
  induction l with
  | nil => simp
  | cons x tl ih =>
      rw [List.map_cons, List.sum_cons, List.countP_cons]
      cases hx : q x with
      | true =>
          have h1 := h x hx
          have h2 : (if (true : Bool) = true then 1 else 0) = 1 := rfl
          rw [h2]
          omega
      | false =>
          have h2 : (if (false : Bool) = true then 1 else 0) = 0 := rfl
          rw [h2]
          omega

theorem groupsMatchCount_cons (g : LogGroup) (gs : List LogGroup) (k : String)
    (r : ERef) :
    groupsMatchCount (g :: gs) k r =
      g.overview.countP (fun e => decide (e.2.1 = k ∧ e.2.2 = r)) +
        groupsMatchCount gs k r := by
  simp [groupsMatchCount]

theorem groupsMatchCount_reverse (gs : List LogGroup) (k : String) (r : ERef) :
    groupsMatchCount gs.reverse k r = groupsMatchCount gs k r := by
  simp [groupsMatchCount, List.map_reverse, List.sum_reverse]

theorem groupsMatchCount_filter_le (q : LogGroup → Bool) (gs : List LogGroup)
    (k : String) (r : ERef) :
    groupsMatchCount (gs.filter q) k r ≤ groupsMatchCount gs k r := by
  induction gs with
  | nil => simp [groupsMatchCount]
  | cons g tl ih =>
      rw [groupsMatchCount_cons]
      by_cases hg : q g = true
      · rw [List.filter_cons_of_pos hg, groupsMatchCount_cons]
        omega
      · rw [List.filter_cons_of_neg hg]
        omega

theorem groupsMatchCount_sortOverview (gs : List LogGroup) (k : String) (r : ERef) :
    groupsMatchCount
      (gs.map (fun g => { g with overview := insertionSortBy overviewLe g.overview }))
      k r = groupsMatchCount gs k r := by
  induction gs with
  | nil => rfl
  | cons g tl ih =>
      rw [List.map_cons, groupsMatchCount_cons, groupsMatchCount_cons, ih,
        countP_insertionSortBy]

theorem groupsMatchCount_perm {gs1 gs2 : List LogGroup}
    (h : List.Perm gs1 gs2) (k : String) (r : ERef) :
    groupsMatchCount gs1 k r = groupsMatchCount gs2 k r := by
  unfold groupsMatchCount
  exact (h.map _).sum_eq

/-- The preparation pass cannot increase the number of matching entries. -/
theorem groupsMatchCount_prep_le (gs : List LogGroup) (k : String) (r : ERef) :
    groupsMatchCount (prep_groups gs) k r ≤ groupsMatchCount gs k r := by
  simp only [prep_groups]
  exact le_trans
    (le_of_eq (groupsMatchCount_perm (insertionSortBy_perm _ _) k r))
    (le_trans (le_of_eq (groupsMatchCount_sortOverview _ k r))
      (groupsMatchCount_filter_le _ gs k r))

theorem LogGroup.line_overview (g : LogGroup) (ln : Nat) (sty : String)
    (v : LineVal) : (g.line ln sty v).overview = g.overview := by
  unfold LogGroup.line
  split_ifs <;> rfl

theorem entryCount_new_group (st : TravSt) (k : String) (r : ERef) :
    entryCount st.new_group k r = entryCount st k r := by
  simp [entryCount, TravSt.new_group, groupsMatchCount_cons]

theorem entryCount_cur_line (st : TravSt) (ln : Nat) (sty : String) (v : LineVal)
    (k : String) (r : ERef) :
    entryCount (st.cur_line ln sty v) k r = entryCount st k r := by
  unfold entryCount TravSt.cur_line
  cases hgr : st.groups_rev with
  | nil => simp only []; rw [hgr]
  | cons g rest =>
      simp only []
      rw [groupsMatchCount_cons, groupsMatchCount_cons, LogGroup.line_overview]

theorem entryCount_cur_append_le (st : TravSt) (ln : Nat) (k0 : String) (r0 : ERef)
    (k : String) (r : ERef) :
    entryCount (st.cur_append ln k0 r0) k r ≤ entryCount st k r + 1 := by
  unfold entryCount TravSt.cur_append LogGroup.append
  cases hgr : st.groups_rev with
  | nil => simp only []; rw [hgr]; omega
  | cons g rest =>
      simp only []
      rw [groupsMatchCount_cons, groupsMatchCount_cons, List.countP_append,
        List.countP_cons, List.countP_nil]
      split_ifs <;> omega

theorem entryCount_cur_append_ne (st : TravSt) (ln : Nat) (k0 : String) (r0 : ERef)
    (k : String) (r : ERef) (h : ¬(k0 = k ∧ r0 = r)) :
    entryCount (st.cur_append ln k0 r0) k r = entryCount st k r := by
  unfold entryCount TravSt.cur_append LogGroup.append
  cases hgr : st.groups_rev with
  | nil => simp only []; rw [hgr]
  | cons g rest =>
      simp only []
      rw [groupsMatchCount_cons, groupsMatchCount_cons, List.countP_append,
        List.countP_cons, List.countP_nil]
      have hd : (decide (((ln, k0, r0) : Nat × String × ERef).2.1 = k ∧
          ((ln, k0, r0) : Nat × String × ERef).2.2 = r)) = false := by
        simpa using h
      rw [hd]
      simp

theorem cur_line_mark_call (st : TravSt) (ln : Nat) (sty : String) (v : LineVal) :
    (st.cur_line ln sty v).mark_call_set = st.mark_call_set := by
  unfold TravSt.cur_line
  cases hgr : st.groups_rev <;> rfl

theorem cur_line_mark_acall (st : TravSt) (ln : Nat) (sty : String) (v : LineVal) :
    (st.cur_line ln sty v).mark_acall_set = st.mark_acall_set := by
  unfold TravSt.cur_line
  cases hgr : st.groups_rev <;> rfl

theorem cur_line_mark_channel (st : TravSt) (ln : Nat) (sty : String) (v : LineVal) :
    (st.cur_line ln sty v).mark_channel_set = st.mark_channel_set := by
  unfold TravSt.cur_line
  cases hgr : st.groups_rev <;> rfl

theorem cur_append_mark_call (st : TravSt) (ln : Nat) (k0 : String) (r0 : ERef) :
    (st.cur_append ln k0 r0).mark_call_set = st.mark_call_set := by
  unfold TravSt.cur_append
  cases hgr : st.groups_rev <;> rfl

theorem cur_append_mark_acall (st : TravSt) (ln : Nat) (k0 : String) (r0 : ERef) :
    (st.cur_append ln k0 r0).mark_acall_set = st.mark_acall_set := by
  unfold TravSt.cur_append
  cases hgr : st.groups_rev <;> rfl

theorem cur_append_mark_channel (st : TravSt) (ln : Nat) (k0 : String) (r0 : ERef) :
    (st.cur_append ln k0 r0).mark_channel_set = st.mark_channel_set := by
  unfold TravSt.cur_append
  cases hgr : st.groups_rev <;> rfl

theorem trav_inv_new_group (p : TravParser) (st : TravSt) (h : trav_inv p st) :
    trav_inv p st.new_group := by
  obtain ⟨h1, h2, h3⟩ := h
  refine ⟨fun x => ⟨fun hm => ?_, ?_⟩, fun i => ⟨fun hm => ?_, ?_⟩,
    fun i => ⟨fun hm => ?_, ?_⟩⟩
  · rw [entryCount_new_group]; exact (h1 x).1 hm
  · rw [entryCount_new_group]; exact (h1 x).2
  · rw [entryCount_new_group]; exact (h2 i).1 hm
  · rw [entryCount_new_group]; exact (h2 i).2
  · rw [entryCount_new_group]; exact (h3 i).1 hm
  · rw [entryCount_new_group]; exact (h3 i).2

theorem trav_inv_cur_line (p : TravParser) (st : TravSt) (ln : Nat) (sty : String)
    (v : LineVal) (h : trav_inv p st) : trav_inv p (st.cur_line ln sty v) := by
  obtain ⟨h1, h2, h3⟩ := h
  refine ⟨fun x => ⟨fun hm => ?_, ?_⟩, fun i => ⟨fun hm => ?_, ?_⟩,
    fun i => ⟨fun hm => ?_, ?_⟩⟩
  · rw [entryCount_cur_line]
    exact (h1 x).1 (by rwa [cur_line_mark_call] at hm)
  · rw [entryCount_cur_line]; exact (h1 x).2
  · rw [entryCount_cur_line]
    exact (h2 i).1 (by rwa [cur_line_mark_acall] at hm)
  · rw [entryCount_cur_line]; exact (h2 i).2
  · rw [entryCount_cur_line]
    exact (h3 i).1 (by rwa [cur_line_mark_channel] at hm)
  · rw [entryCount_cur_line]; exact (h3 i).2

theorem trav_inv_mark_sip (p : TravParser) (st : TravSt) (j : Nat)
    (h : trav_inv p st) :
    trav_inv p { st with mark_sip_set := j :: st.mark_sip_set } := h

theorem trav_inv_mark_call (p : TravParser) (st : TravSt) (ck : Option String)
    (h : trav_inv p st) :
    trav_inv p { st with mark_call_set := ck :: st.mark_call_set } := by
  obtain ⟨h1, h2, h3⟩ := h
  exact ⟨fun x => ⟨fun hm => (h1 x).1 (fun hmem => hm (List.mem_cons_of_mem _ hmem)),
    (h1 x).2⟩, h2, h3⟩

theorem trav_inv_mark_acall (p : TravParser) (st : TravSt) (j : Nat)
    (h : trav_inv p st) :
    trav_inv p { st with mark_acall_set := j :: st.mark_acall_set } := by
  obtain ⟨h1, h2, h3⟩ := h
  exact ⟨h1, fun i => ⟨fun hm => (h2 i).1 (fun hmem => hm (List.mem_cons_of_mem _ hmem)),
    (h2 i).2⟩, h3⟩

theorem trav_inv_mark_channel (p : TravParser) (st : TravSt) (j : Nat)
    (h : trav_inv p st) :
    trav_inv p { st with mark_channel_set := j :: st.mark_channel_set } := by
  obtain ⟨h1, h2, h3⟩ := h
  exact ⟨h1, h2, fun i => ⟨fun hm => (h3 i).1 (fun hmem => hm (List.mem_cons_of_mem _ hmem)),
    (h3 i).2⟩⟩

/-- Appending a `dialog` entry for a sip whose count is still 0 and whose
call-id key has just been marked keeps the invariant. -/
theorem trav_inv_append_dialog (p : TravParser) (st : TravSt) (sref ln : Nat)
    (h : trav_inv p st)
    (h0 : entryCount st "dialog" (ERef.sip sref) = 0)
    (hm : sipCallKey p sref ∈ st.mark_call_set) :
    trav_inv p (st.cur_append ln "dialog" (ERef.sip sref)) := by
  obtain ⟨h1, h2, h3⟩ := h
  refine ⟨fun x => ⟨fun hmem => ?_, ?_⟩, fun i => ⟨fun hmem => ?_, ?_⟩,
    fun i => ⟨fun hmem => ?_, ?_⟩⟩
  · rw [cur_append_mark_call] at hmem
    by_cases hx : x = sref
    · exact absurd (hx ▸ hmem) (fun hc => hc hm)
    · rw [entryCount_cur_append_ne st ln "dialog" (ERef.sip sref) "dialog" (ERef.sip x)
        (fun hc => hx (by injection hc.2 with hh; exact hh.symm))]
      exact (h1 x).1 hmem
  · by_cases hx : x = sref
    · subst hx
      have := entryCount_cur_append_le st ln "dialog" (ERef.sip x) "dialog" (ERef.sip x)
      omega
    · rw [entryCount_cur_append_ne st ln "dialog" (ERef.sip sref) "dialog" (ERef.sip x)
        (fun hc => hx (by injection hc.2 with hh; exact hh.symm))]
      exact (h1 x).2
  · rw [cur_append_mark_acall] at hmem
    rw [entryCount_cur_append_ne st ln "dialog" (ERef.sip sref) "astcall" (ERef.acall i)
      (fun hc => absurd hc.1 (by decide))]
    exact (h2 i).1 hmem
  · rw [entryCount_cur_append_ne st ln "dialog" (ERef.sip sref) "astcall" (ERef.acall i)
      (fun hc => absurd hc.1 (by decide))]
    exact (h2 i).2
  · rw [cur_append_mark_channel] at hmem
    rw [entryCount_cur_append_ne st ln "dialog" (ERef.sip sref) "channel" (ERef.chan i)
      (fun hc => absurd hc.1 (by decide))]
    exact (h3 i).1 hmem
  · rw [entryCount_cur_append_ne st ln "dialog" (ERef.sip sref) "channel" (ERef.chan i)
      (fun hc => absurd hc.1 (by decide))]
    exact (h3 i).2

/-- Appending an `astcall` entry for a freshly marked acall keeps the
invariant. -/
theorem trav_inv_append_astcall (p : TravParser) (st : TravSt) (j ln : Nat)
    (h : trav_inv p st)
    (h0 : entryCount st "astcall" (ERef.acall j) = 0)
    (hm : j ∈ st.mark_acall_set) :
    trav_inv p (st.cur_append ln "astcall" (ERef.acall j)) := by
  obtain ⟨h1, h2, h3⟩ := h
  refine ⟨fun x => ⟨fun hmem => ?_, ?_⟩, fun i => ⟨fun hmem => ?_, ?_⟩,
    fun i => ⟨fun hmem => ?_, ?_⟩⟩
  · rw [cur_append_mark_call] at hmem
    rw [entryCount_cur_append_ne st ln "astcall" (ERef.acall j) "dialog" (ERef.sip x)
      (fun hc => absurd hc.1 (by decide))]
    exact (h1 x).1 hmem
  · rw [entryCount_cur_append_ne st ln "astcall" (ERef.acall j) "dialog" (ERef.sip x)
      (fun hc => absurd hc.1 (by decide))]
    exact (h1 x).2
  · rw [cur_append_mark_acall] at hmem
    by_cases hx : i = j
    · exact absurd (hx ▸ hm) hmem
    · rw [entryCount_cur_append_ne st ln "astcall" (ERef.acall j) "astcall" (ERef.acall i)
        (fun hc => hx (by injection hc.2 with hh; exact hh.symm))]
      exact (h2 i).1 hmem
  · by_cases hx : i = j
    · subst hx
      have := entryCount_cur_append_le st ln "astcall" (ERef.acall i) "astcall" (ERef.acall i)
      omega
    · rw [entryCount_cur_append_ne st ln "astcall" (ERef.acall j) "astcall" (ERef.acall i)
        (fun hc => hx (by injection hc.2 with hh; exact hh.symm))]
      exact (h2 i).2
  · rw [cur_append_mark_channel] at hmem
    rw [entryCount_cur_append_ne st ln "astcall" (ERef.acall j) "channel" (ERef.chan i)
      (fun hc => absurd hc.1 (by decide))]
    exact (h3 i).1 hmem
  · rw [entryCount_cur_append_ne st ln "astcall" (ERef.acall j) "channel" (ERef.chan i)
      (fun hc => absurd hc.1 (by decide))]
    exact (h3 i).2

/-- Appending a `channel` entry for a freshly marked channel keeps the
invariant. -/
theorem trav_inv_append_channel (p : TravParser) (st : TravSt) (j ln : Nat)
    (h : trav_inv p st)
    (h0 : entryCount st "channel" (ERef.chan j) = 0)
    (hm : j ∈ st.mark_channel_set) :
    trav_inv p (st.cur_append ln "channel" (ERef.chan j)) := by
  obtain ⟨h1, h2, h3⟩ := h
  refine ⟨fun x => ⟨fun hmem => ?_, ?_⟩, fun i => ⟨fun hmem => ?_, ?_⟩,
    fun i => ⟨fun hmem => ?_, ?_⟩⟩
  · rw [cur_append_mark_call] at hmem
    rw [entryCount_cur_append_ne st ln "channel" (ERef.chan j) "dialog" (ERef.sip x)
      (fun hc => absurd hc.1 (by decide))]
    exact (h1 x).1 hmem
  · rw [entryCount_cur_append_ne st ln "channel" (ERef.chan j) "dialog" (ERef.sip x)
      (fun hc => absurd hc.1 (by decide))]
    exact (h1 x).2
  · rw [cur_append_mark_acall] at hmem
    rw [entryCount_cur_append_ne st ln "channel" (ERef.chan j) "astcall" (ERef.acall i)
      (fun hc => absurd hc.1 (by decide))]
    exact (h2 i).1 hmem
  · rw [entryCount_cur_append_ne st ln "channel" (ERef.chan j) "astcall" (ERef.acall i)
      (fun hc => absurd hc.1 (by decide))]
    exact (h2 i).2
  · rw [cur_append_mark_channel] at hmem
    by_cases hx : i = j
    · exact absurd (hx ▸ hm) hmem
    · rw [entryCount_cur_append_ne st ln "channel" (ERef.chan j) "channel" (ERef.chan i)
        (fun hc => hx (by injection hc.2 with hh; exact hh.symm))]
      exact (h3 i).1 hmem
  · by_cases hx : i = j
    · subst hx
      have := entryCount_cur_append_le st ln "channel" (ERef.chan i) "channel" (ERef.chan i)
      omega
    · rw [entryCount_cur_append_ne st ln "channel" (ERef.chan j) "channel" (ERef.chan i)
        (fun hc => hx (by injection hc.2 with hh; exact hh.symm))]
      exact (h3 i).2

/-- `trav_wf` unpacked: every sip listed under a dialog key carries that key
as its `call_id`. -/
theorem wf_dialog_mem (p : TravParser) (hWF : trav_wf p = true) (c : String)
    (l : List Nat) (hl : alLookup p.dialogs c = some l) (sid : Nat)
    (hsid : sid ∈ l) :
    ∃ m, p.sips.get? sid = some m ∧ m.call_id = some c := by
  have hmem := alLookup_mem p.dialogs c l hl
  unfold trav_wf at hWF
  rw [Bool.and_eq_true] at hWF
  have h1 := hWF.1
  rw [List.all_eq_true] at h1
  have h2 := h1 (c, l) hmem
  rw [Bool.and_eq_true] at h2
  have h3 := h2.2
  rw [List.all_eq_true] at h3
  have h4 := h3 sid hsid
  cases hg : p.sips.get? sid with
  | none => rw [hg] at h4; simp at h4
  | some m =>
      rw [hg] at h4
      simp only [] at h4
      exact ⟨m, rfl, by simpa using h4⟩

/-- `trav_wf` unpacked: a message's `dialog` field names its own `call_id`. -/
theorem wf_sip_dialog (p : TravParser) (hWF : trav_wf p = true) (i : Nat)
    (m : SipMessage) (hget : p.sips.get? i = some m) (c : String)
    (hd : m.dialog = some c) : m.call_id = some c := by
  unfold trav_wf at hWF
  rw [Bool.and_eq_true] at hWF
  have h1 := hWF.2
  rw [List.all_eq_true] at h1
  have h2 := h1 m (List.get?_mem hget)
  rw [hd] at h2
  simp only [] at h2
  simpa using h2

/-- The dialog entry emitted for a sip refers to an object on the sip's own
call (the key the guard just marked). -/
theorem dialogStartRef_key (p : TravParser) (hWF : trav_wf p = true) (i : Nat)
    (sip : SipMessage) (hget : p.sips.get? i = some sip) :
    sipCallKey p (dialogStartRef p i sip) = sip.call_id := by
  unfold dialogStartRef
  cases hd : sip.dialog with
  | none =>
      simp only []
      unfold sipCallKey
      rw [hget]
  | some c =>
      simp only []
      cases hl : alLookup p.dialogs c with
      | none =>
          simp only []
          unfold sipCallKey
          rw [hget]
      | some l =>
          cases l with
          | nil =>
              simp only []
              unfold sipCallKey
              rw [hget]
          | cons s0 tl =>
              simp only []
              obtain ⟨m, hm, hkey⟩ :=
                wf_dialog_mem p hWF c (s0 :: tl) hl s0 (List.mem_cons_self _ _)
              have hsc : sip.call_id = some c := wf_sip_dialog p hWF i sip hget c hd
              unfold sipCallKey
              rw [hm]
              simp only []
              rw [hkey, hsc]

theorem trav_add_sip_zero (p : TravParser) (sid : Option Nat) (st : TravSt) :
    trav_add_sip p 0 sid st = st := by
  cases sid with
  | none => rw [trav_add_sip]
  | some i =>
      rw [trav_add_sip.eq_2]
      split_ifs <;> rfl

theorem trav_add_acall_zero (p : TravParser) (aid : Option Nat) (st : TravSt) :
    trav_add_acall p 0 aid st = st := by
  cases aid with
  | none => rw [trav_add_acall]
  | some i =>
      rw [trav_add_acall.eq_2]
      split_ifs <;> rfl

theorem trav_add_channel_zero (p : TravParser) (cid : Option Nat) (st : TravSt) :
    trav_add_channel p 0 cid st = st := by
  cases cid with
  | none => rw [trav_add_channel]
  | some i =>
      rw [trav_add_channel.eq_2]
      split_ifs <;> rfl

theorem trav_add_sip_list_zero (p : TravParser) (l : List Nat) (st : TravSt) :
    trav_add_sip_list p 0 l st = st := by
  induction l generalizing st with
  | nil => rw [trav_add_sip_list]
  | cons s rest ih =>
      rw [trav_add_sip_list, trav_add_sip_zero]
      exact ih st

theorem trav_add_acall_list_zero (p : TravParser) (l : List Nat) (st : TravSt) :
    trav_add_acall_list p 0 l st = st := by
  induction l generalizing st with
  | nil => rw [trav_add_acall_list]
  | cons a rest ih =>
      rw [trav_add_acall_list, trav_add_acall_zero]
      exact ih st

theorem trav_add_channel_list_zero (p : TravParser) (l : List Nat) (st : TravSt) :
    trav_add_channel_list p 0 l st = st := by
  induction l generalizing st with
  | nil => rw [trav_add_channel_list]
  | cons c rest ih =>
      rw [trav_add_channel_list, trav_add_channel_zero]
      exact ih st

theorem trav_add_sip_marked (p : TravParser) (fuel i : Nat) (st : TravSt)
    (h : i ∈ st.mark_sip_set) : trav_add_sip p fuel (some i) st = st := by
  cases fuel with
  | zero => rw [trav_add_sip.eq_2, if_pos h]
  | succ f =>
      cases hget : p.sips.get? i with
      | none =>
          rw [trav_add_sip.eq_3 p st i (f + 1) (fun hc => Nat.succ_ne_zero f hc) hget,
            if_pos h]
      | some sip => rw [trav_add_sip.eq_4 p st i f sip hget, if_pos h]

theorem trav_add_acall_marked (p : TravParser) (fuel i : Nat) (st : TravSt)
    (h : i ∈ st.mark_acall_set) : trav_add_acall p fuel (some i) st = st := by
  cases fuel with
  | zero => rw [trav_add_acall.eq_2, if_pos h]
  | succ f =>
      cases hget : p.acalls.get? i with
      | none =>
          rw [trav_add_acall.eq_3 p st i (f + 1) (fun hc => Nat.succ_ne_zero f hc) hget,
            if_pos h]
      | some ac => rw [trav_add_acall.eq_4 p st i f ac hget, if_pos h]

theorem trav_add_channel_marked (p : TravParser) (fuel i : Nat) (st : TravSt)
    (h : i ∈ st.mark_channel_set) : trav_add_channel p fuel (some i) st = st := by
  cases fuel with
  | zero => rw [trav_add_channel.eq_2, if_pos h]
  | succ f =>
      cases hget : p.channels.get? i with
      | none =>
          rw [trav_add_channel.eq_3 p st i (f + 1) (fun hc => Nat.succ_ne_zero f hc) hget,
            if_pos h]
      | some ch => rw [trav_add_channel.eq_4 p st i f ch hget, if_pos h]

/-- All six traversal functions preserve the uniqueness invariant, at every
fuel. -/
theorem trav_preserves (p : TravParser) (hWF : trav_wf p = true) :
    ∀ fuel : Nat,
      (∀ sid st, trav_inv p st → trav_inv p (trav_add_sip p fuel sid st)) ∧
      (∀ aid st, trav_inv p st → trav_inv p (trav_add_acall p fuel aid st)) ∧
      (∀ cid st, trav_inv p st → trav_inv p (trav_add_channel p fuel cid st)) ∧
      (∀ l st, trav_inv p st → trav_inv p (trav_add_sip_list p fuel l st)) ∧
      (∀ l st, trav_inv p st → trav_inv p (trav_add_acall_list p fuel l st)) ∧
      (∀ l st, trav_inv p st → trav_inv p (trav_add_channel_list p fuel l st)) := by
  intro fuel
  induction fuel with
  | zero =>
      refine ⟨?_, ?_, ?_, ?_, ?_, ?_⟩
      · intro sid st h; rw [trav_add_sip_zero]; exact h
      · intro aid st h; rw [trav_add_acall_zero]; exact h
      · intro cid st h; rw [trav_add_channel_zero]; exact h
      · intro l st h; rw [trav_add_sip_list_zero]; exact h
      · intro l st h; rw [trav_add_acall_list_zero]; exact h
      · intro l st h; rw [trav_add_channel_list_zero]; exact h
  | succ f ih =>
      obtain ⟨ihs, iha, ihc, ihsl, ihal, ihcl⟩ := ih
      have hs : ∀ sid st, trav_inv p st → trav_inv p (trav_add_sip p (f + 1) sid st) := by
        intro sid st h
        cases sid with
        | none => rw [trav_add_sip.eq_1]; exact h
        | some i =>
            by_cases hmark : i ∈ st.mark_sip_set
            · rw [trav_add_sip_marked p (f + 1) i st hmark]; exact h
            · cases hget : p.sips.get? i with
              | none =>
                  rw [trav_add_sip.eq_3 p st i (f + 1)
                    (fun hc => Nat.succ_ne_zero f hc) hget, if_neg hmark]
                  exact h
              | some sip =>
                  rw [trav_add_sip.eq_4 p st i f sip hget, if_neg hmark]
                  simp only []
                  refine ihsl _ _ (ihal _ _ (iha _ _ ?_))
                  by_cases hcid : sip.call_id ∈
                      (TravSt.cur_line { st with mark_sip_set := i :: st.mark_sip_set }
                        sip.line_no "sip" (LineVal.sipRef i)).mark_call_set
                  · rw [if_pos hcid]
                    exact trav_inv_cur_line p _ _ _ _ (trav_inv_mark_sip p st i h)
                  · rw [if_neg hcid]
                    refine foldl_preserves
                      (fun a b ha => trav_inv_cur_line p a b.1 "verbose" (LineVal.text b.2) ha)
                      _ _ ?_
                    have hinv2 : trav_inv p
                        (TravSt.cur_line { st with mark_sip_set := i :: st.mark_sip_set }
                          sip.line_no "sip" (LineVal.sipRef i)) :=
                      trav_inv_cur_line p _ _ _ _ (trav_inv_mark_sip p st i h)
                    have hkey := dialogStartRef_key p hWF i sip hget
                    have hfresh : sip.call_id ∉ st.mark_call_set := by
                      intro hc
                      exact hcid (by rw [cur_line_mark_call]; exact hc)
                    have h0 : entryCount
                        (TravSt.cur_line { st with mark_sip_set := i :: st.mark_sip_set }
                          sip.line_no "sip" (LineVal.sipRef i))
                        "dialog" (ERef.sip (dialogStartRef p i sip)) = 0 := by
                      rw [entryCount_cur_line]
                      exact (h.1 (dialogStartRef p i sip)).1 (by rw [hkey]; exact hfresh)
                    refine trav_inv_append_dialog p _ _ _
                      (trav_inv_mark_call p _ sip.call_id hinv2) ?_ ?_
                    · exact h0
                    · rw [hkey]
                      exact List.mem_cons_self _ _
      have ha : ∀ aid st, trav_inv p st → trav_inv p (trav_add_acall p (f + 1) aid st) := by
        intro aid st h
        cases aid with
        | none => rw [trav_add_acall.eq_1]; exact h
        | some i =>
            by_cases hmark : i ∈ st.mark_acall_set
            · rw [trav_add_acall_marked p (f + 1) i st hmark]; exact h
            · cases hget : p.acalls.get? i with
              | none =>
                  rw [trav_add_acall.eq_3 p st i (f + 1)
                    (fun hc => Nat.succ_ne_zero f hc) hget, if_neg hmark]
                  exact h
              | some ac =>
                  rw [trav_add_acall.eq_4 p st i f ac hget, if_neg hmark]
                  simp only []
                  refine ihsl _ _ (ihcl _ _ ?_)
                  have hfold := @foldl_preserves TravSt (Nat × String)
                    (fun a => trav_inv p a ∧
                      entryCount a "astcall" (ERef.acall i) = 0 ∧ i ∈ a.mark_acall_set)
                    (fun st pr => st.cur_line pr.1 "verbose" (LineVal.text pr.2))
                    (fun a b hab => ⟨trav_inv_cur_line p a b.1 "verbose" (LineVal.text b.2) hab.1,
                      by rw [entryCount_cur_line]; exact hab.2.1,
                      by rw [cur_line_mark_acall]; exact hab.2.2⟩)
                    ac.lines { st with mark_acall_set := i :: st.mark_acall_set }
                    ⟨trav_inv_mark_acall p st i h, (h.2.1 i).1 hmark, List.mem_cons_self _ _⟩
                  cases hml : minLineNo ac.lines with
                  | none => simp only []; exact hfold.1
                  | some ln =>
                      simp only []
                      exact trav_inv_append_astcall p _ i ln hfold.1 hfold.2.1 hfold.2.2
      have hc : ∀ cid st, trav_inv p st → trav_inv p (trav_add_channel p (f + 1) cid st) := by
        intro cid st h
        cases cid with
        | none => rw [trav_add_channel.eq_1]; exact h
        | some i =>
            by_cases hmark : i ∈ st.mark_channel_set
            · rw [trav_add_channel_marked p (f + 1) i st hmark]; exact h
            · cases hget : p.channels.get? i with
              | none =>
                  rw [trav_add_channel.eq_3 p st i (f + 1)
                    (fun hc => Nat.succ_ne_zero f hc) hget, if_neg hmark]
                  exact h
              | some ch =>
                  rw [trav_add_channel.eq_4 p st i f ch hget, if_neg hmark]
                  simp only []
                  refine ihsl _ _ (ihal _ _ ?_)
                  have hfold := @foldl_preserves TravSt (Nat × String)
                    (fun a => trav_inv p a ∧
                      entryCount a "channel" (ERef.chan i) = 0 ∧ i ∈ a.mark_channel_set)
                    (fun st pr => st.cur_line pr.1 "channel" (LineVal.text pr.2))
                    (fun a b hab => ⟨trav_inv_cur_line p a b.1 "channel" (LineVal.text b.2) hab.1,
                      by rw [entryCount_cur_line]; exact hab.2.1,
                      by rw [cur_line_mark_channel]; exact hab.2.2⟩)
                    ch.lines { st with mark_channel_set := i :: st.mark_channel_set }
                    ⟨trav_inv_mark_channel p st i h, (h.2.2 i).1 hmark, List.mem_cons_self _ _⟩
                  cases hml : minLineNo ch.lines with
                  | none => simp only []; exact hfold.1
                  | some ln =>
                      simp only []
                      exact trav_inv_append_channel p _ i ln hfold.1 hfold.2.1 hfold.2.2
      have hsl : ∀ l st, trav_inv p st → trav_inv p (trav_add_sip_list p (f + 1) l st) := by
        intro l
        induction l with
        | nil => intro st h; rw [trav_add_sip_list.eq_1]; exact h
        | cons x rest ihl =>
            intro st h
            rw [trav_add_sip_list.eq_2]
            exact ihl _ (hs (some x) st h)
      have hal : ∀ l st, trav_inv p st → trav_inv p (trav_add_acall_list p (f + 1) l st) := by
        intro l
        induction l with
        | nil => intro st h; rw [trav_add_acall_list.eq_1]; exact h
        | cons x rest ihl =>
            intro st h
            rw [trav_add_acall_list.eq_2]
            exact ihl _ (ha (some x) st h)
      have hcl : ∀ l st, trav_inv p st → trav_inv p (trav_add_channel_list p (f + 1) l st) := by
        intro l
        induction l with
        | nil => intro st h; rw [trav_add_channel_list.eq_1]; exact h
        | cons x rest ihl =>
            intro st h
            rw [trav_add_channel_list.eq_2]
            exact ihl _ (hc (some x) st h)
      exact ⟨hs, ha, hc, hsl, hal, hcl⟩

theorem trav_inv_empty (p : TravParser) : trav_inv p ⟨[], [], [], [], []⟩ :=
  ⟨fun _ => ⟨fun _ => rfl, Nat.zero_le 1⟩, fun _ => ⟨fun _ => rfl, Nat.zero_le 1⟩,
   fun _ => ⟨fun _ => rfl, Nat.zero_le 1⟩⟩

/-- The state `link_all` builds satisfies the uniqueness invariant. -/
theorem link_all_inv (p : TravParser) (hWF : trav_wf p = true) (ref : String)
    (fuel : Nat) : trav_inv p (link_all p ref fuel) := by
  obtain ⟨hs, ha, hc, hsl, hal, hcl⟩ := trav_preserves p hWF fuel
  have hstepS : ∀ (st : TravSt) (s : Nat), trav_inv p st →
      trav_inv p (trav_add_sip p fuel (some s) st.new_group) :=
    fun st s hst => hs _ _ (trav_inv_new_group p st hst)
  have hstepC : ∀ (st : TravSt) (c : Nat), trav_inv p st →
      trav_inv p (trav_add_channel p fuel (some c) st.new_group) :=
    fun st c hst => hc _ _ (trav_inv_new_group p st hst)
  have stage1 : trav_inv p
      (match alLookup p.phone_sip_map ref with
       | some l =>
           if l.isEmpty then (⟨[], [], [], [], []⟩ : TravSt)
           else
             (sortSipsByLineNo p (include_dialog_sips p l)).foldl
               (fun st s => trav_add_sip p fuel (some s) st.new_group)
               (⟨[], [], [], [], []⟩ : TravSt)
       | none => (⟨[], [], [], [], []⟩ : TravSt)) := by
    cases alLookup p.phone_sip_map ref with
    | none => exact trav_inv_empty p
    | some l =>
        simp only []
        split_ifs
        · exact trav_inv_empty p
        · exact foldl_preserves (fun a b hab => hstepS a b hab) _ _ (trav_inv_empty p)
  have stage2 : ∀ st : TravSt, trav_inv p st → trav_inv p
      (match alLookup p.phone_channel_map ref with
       | some l =>
           if l.isEmpty then st
           else
             (insertionSortBy (fun a b => !(chanKeyLt p b a)) l).foldl
               (fun st c => trav_add_channel p fuel (some c) st.new_group) st
       | none => st) := by
    intro st hst
    cases alLookup p.phone_channel_map ref with
    | none => exact hst
    | some l =>
        simp only []
        split_ifs
        · exact hst
        · exact foldl_preserves (fun a b hab => hstepC a b hab) _ _ hst
  have stage3 : ∀ st : TravSt, trav_inv p st → trav_inv p
      (match alLookup p.queues ref with
       | some qs =>
           qs.foldl (fun st q => trav_add_channel p fuel (some q.channel) st.new_group) st
       | none => st) := by
    intro st hst
    cases alLookup p.queues ref with
    | none => exact hst
    | some qs =>
        exact foldl_preserves (fun a b hab => hstepC a b.channel hab) _ _ hst
  have stage4 : ∀ st : TravSt, trav_inv p st → trav_inv p
      (match chanIdx p ref with
       | some c => trav_add_channel p fuel (some c) st.new_group
       | none => st) := by
    intro st hst
    cases chanIdx p ref with
    | none => exact hst
    | some c => exact hstepC st c hst
  have stage5 : ∀ st : TravSt, trav_inv p st → trav_inv p
      (match (alLookup p.call_sip_map ref).getD [] with
       | [] => st
       | s :: _ => trav_add_sip p fuel (some s) st.new_group) := by
    intro st hst
    cases (alLookup p.call_sip_map ref).getD [] with
    | nil => exact hst
    | cons s rest => exact hstepS st s hst
  simp only [link_all]
  exact stage5 _ (stage4 _ (stage3 _ (stage2 _ stage1)))

/-- A resolved isolate pairs each overview kind with the matching object
constructor. -/
theorem resolve_isolate_shape (p : TravParser) (rt oid : String)
    (fo : String × ERef) (h : resolve_isolate p rt oid = some fo) :
    (fo.1 = "dialog" ∧ ∃ s, fo.2 = ERef.sip s) ∨
    (fo.1 = "channel" ∧ ∃ c, fo.2 = ERef.chan c) ∨
    (fo.1 = "astcall" ∧ ∃ a, fo.2 = ERef.acall a) := by
  unfold resolve_isolate at h
  split_ifs at h
  · cases hl : alLookup p.dialogs oid with
    | none => rw [hl] at h; simp only [] at h; exact Option.noConfusion h
    | some l =>
        rw [hl] at h
        cases l with
        | nil => simp only [] at h; exact Option.noConfusion h
        | cons s0 tl =>
            simp only [] at h
            cases Option.some_inj.mp h
            exact Or.inl ⟨rfl, s0, rfl⟩
  · cases hf : find_sip_by_ref p oid with
    | none => rw [hf] at h; simp only [] at h; exact Option.noConfusion h
    | some i =>
        rw [hf] at h
        simp only [] at h
        cases hg : p.sips.get? i with
        | none => rw [hg] at h; simp only [] at h; exact Option.noConfusion h
        | some m =>
            rw [hg] at h
            simp only [] at h
            cases hd : m.dialog with
            | none =>
                rw [hd] at h
                simp only [] at h
                cases Option.some_inj.mp h
                exact Or.inl ⟨rfl, i, rfl⟩
            | some c =>
                rw [hd] at h
                simp only [] at h
                cases hl : alLookup p.dialogs c with
                | none => rw [hl] at h; simp only [] at h; exact Option.noConfusion h
                | some l =>
                    rw [hl] at h
                    cases l with
                    | nil => simp only [] at h; exact Option.noConfusion h
                    | cons s0 tl =>
                        simp only [] at h
                        cases Option.some_inj.mp h
                        exact Or.inl ⟨rfl, s0, rfl⟩
  · cases hcx : chanIdx p oid with
    | none =>
        rw [hcx, Option.map_none'] at h
        exact Option.noConfusion h
    | some c =>
        rw [hcx, Option.map_some'] at h
        cases Option.some_inj.mp h
        exact Or.inr (Or.inl ⟨rfl, c, rfl⟩)
  · cases hax : acallIdx p oid with
    | none =>
        rw [hax, Option.map_none'] at h
        exact Option.noConfusion h
    | some a =>
        rw [hax, Option.map_some'] at h
        cases Option.some_inj.mp h
        exact Or.inr (Or.inr ⟨rfl, a, rfl⟩)

/-- C3: for every reference and every isolation tuple that resolves to an
existing entity, `get_linked_objects` returns exactly the prepared (non-empty,
sorted) groups of the seed traversal whose overview contains an entry for that
entity, and drops every other group — the first-match scan of the source is
exhaustive because the global mark sets let each entity receive at most one
overview entry across all groups (`trav_inv`). -/
theorem c3_isolation_filters_exactly (p : TravParser) (hWF : trav_wf p = true)
    (ref rt oid : String) (fo : String × ERef) (d : Nat)
    (hres : resolve_isolate p rt oid = some fo) :
    (get_linked_objects p ref (some (rt, oid)) d).1 =
      (prep_groups (link_all p ref (d + 1)).groups_rev.reverse).filter
        (fun g => g.overview.any (fun e => decide (e.2.1 = fo.1 ∧ e.2.2 = fo.2))) := by
  have hinv := link_all_inv p hWF ref (d + 1)
  have hle1 : groupsMatchCount (link_all p ref (d + 1)).groups_rev fo.1 fo.2 ≤ 1 := by
    rcases resolve_isolate_shape p rt oid fo hres with ⟨hk, s, hr⟩ | ⟨hk, c, hr⟩ | ⟨hk, a, hr⟩
    · rw [hk, hr]; exact (hinv.1 s).2
    · rw [hk, hr]; exact (hinv.2.2 c).2
    · rw [hk, hr]; exact (hinv.2.1 a).2
  have hcnt : groupsMatchCount
      (prep_groups (link_all p ref (d + 1)).groups_rev.reverse) fo.1 fo.2 ≤ 1 :=
    le_trans (groupsMatchCount_prep_le _ _ _)
      (le_trans (le_of_eq (groupsMatchCount_reverse _ _ _)) hle1)
  have hcnt' : (List.map
      (fun g => g.overview.countP (fun e => decide (e.2.1 = fo.1 ∧ e.2.2 = fo.2)))
      (prep_groups (link_all p ref (d + 1)).groups_rev.reverse)).sum ≤ 1 := hcnt
  have hcp : (prep_groups (link_all p ref (d + 1)).groups_rev.reverse).countP
      (fun g => g.overview.any (fun e => decide (e.2.1 = fo.1 ∧ e.2.2 = fo.2))) ≤ 1 := by
    refine le_trans (countP_le_sum_map _
      (fun g => g.overview.countP (fun e => decide (e.2.1 = fo.1 ∧ e.2.2 = fo.2))) _ ?_) hcnt'
    intro g hg
    rw [List.any_eq_true] at hg
    obtain ⟨e, he, hept⟩ := hg
    exact List.countP_pos.mpr ⟨e, he, hept⟩
  simp only [get_linked_objects, isolate_groups]
  rw [hres]
  simp only []
  cases hfind : List.find?
      (fun g => g.overview.any (fun e => decide (e.2.1 = fo.1 ∧ e.2.2 = fo.2)))
      (prep_groups (link_all p ref (d + 1)).groups_rev.reverse) with
  | none =>
      simp only []
      exact (List.filter_eq_nil.mpr (List.find?_eq_none.mp hfind)).symm
  | some g =>
      simp only []
      exact (filter_eq_of_find? _ _ hcp g hfind).symm

/-- Witness: on the two-call fixture, isolating call `"X"` keeps exactly the
matching group and drops the `"Y"` group. -/
theorem c3_isolation_filters_exactly_witness :
    (get_linked_objects pC3 "100" (some ("call_id", "X")) 10).1 =
      (prep_groups (link_all pC3 "100" 11).groups_rev.reverse).filter
        (fun g => g.overview.any (fun e =>
          decide (e.2.1 = "dialog" ∧ e.2.2 = ERef.sip 0))) :=
  c3_isolation_filters_exactly pC3 (by decide) "100" "call_id" "X"
    ("dialog", ERef.sip 0) 10 (by decide)

end Astlog

